import Mathlib

/-!
# UPS customs-document service: PDF assembly pipeline

A shallow embedding of `src/index.js` (the document pipeline of the service) and
the properties of it that the specification states.

Conventions of the embedding.

* A PDF document is the list of its pages; reading a file is the identity on that list
  and writing goes through `save`, which gives a document without pages one default page.
* A call into `pdf-lib` that checks a precondition and throws (`insertPage`,
  `getPage`, `copyPages`) returns an `Option`.
* A `for` loop whose termination depends on its data carries a fuel argument and
  returns `none` when the fuel runs out.
* An amount of an order is the integer numeral of the request body. The number the code
  holds for it is the nearest double (`roundDouble`), every sum is rounded to a double
  again (`jsAdd`, `jsSub`), and a number is printed as `Number::toString` prints it
  (`jsNumberText`).
* The request handler is a function of an environment (`PipelineEnv`) that answers what
  lies outside the program: which files exist, what the carrier replies, and which
  stamping, rendering, merging or moving step throws, with which message.
-/

namespace UpsDocs

/-! ## PDF composer (`src/index.js`, lines 321-360) -/

section Composer

variable {P : Type}

/-- `PDFDocument.getPageCount()`. -/
def getPageCount (doc : List P) : Nat := doc.length

/-- `PDFDocument.getPageIndices()`: the indices `0, 1, ..., pageCount - 1`. -/
def getPageIndices (doc : List P) : List Nat := List.range (getPageCount doc)

/-- `PDFDocument.copyPages(src, indices)`: the pages of `src` at the given indices, in
the order of the indices; it throws on an index that is not a page of `src`. -/
def copyPages (src : List P) : List Nat → Option (List P)
  | [] => some []
  | i :: rest =>
    match src[i]? with
    | none => none
    | some page => (copyPages src rest).map (fun pages => page :: pages)

/-- `PDFDocument.addPage(page)`: the page becomes the last page. -/
def addPage (doc : List P) (page : P) : List P := doc ++ [page]

/-- `PDFDocument.insertPage(index, page)`: asserts `0 <= index <= pageCount` and puts
the page at that index, moving the pages from that index on one place back. -/
def insertPage (doc : List P) (index : Int) (page : P) : Option (List P) :=
  if 0 ≤ index ∧ index ≤ (getPageCount doc : Int) then
    some (doc.take index.toNat ++ page :: doc.drop index.toNat)
  else none

/-- `PDFDocument.save()`, as far as the pages go: a document without pages gets one
default blank page first (the option `addDefaultPage`, on by default), every other
document is written as it is. -/
def save (blank : P) (doc : List P) : List P :=
  if getPageCount doc = 0 then addPage doc blank else doc

/-- `xs.forEach((x, idx) => ...)` for a callback that updates a state and may throw:
the elements are visited in order, `idx` counting from the given start. -/
def forEachIdx {σ α : Type} (f : σ → α → Nat → Option σ) : List α → Nat → σ → Option σ
  | [], _, s => some s
  | a :: as, idx, s => (f s a idx).bind (forEachIdx f as (idx + 1))

/-- `mergePdfAppend(basePdfPath, appendPdfPath, outPath)` on page lists: the pages of the
file written at `outPath`; `blank` is the default page of `save`. -/
def mergePdfAppend (blank : P) (baseDoc appendDoc : List P) : Option (List P) :=
  (copyPages appendDoc (getPageIndices appendDoc)).map
    (fun pages => save blank (pages.foldl addPage baseDoc))

/-- `mergePdfInsertAfter(basePdfPath, insertPdfPath, insertAfterPageIndex, outPath)` on
page lists: the pages of the file written at `outPath`; `blank` is the default page of
`save`. -/
def mergePdfInsertAfter (blank : P) (baseDoc insertDoc : List P)
    (insertAfterPageIndex : Int) : Option (List P) :=
  (copyPages insertDoc (getPageIndices insertDoc)).bind fun insertPages =>
    let baseCount := getPageCount baseDoc
    let startIndex : Int := min (max (insertAfterPageIndex + 1) 0) (baseCount : Int)
    (forEachIdx (fun doc page idx => insertPage doc (startIndex + (idx : Int)) page)
      insertPages 0 baseDoc).map (save blank)

end Composer

/-! ## Paginated table renderer (`src/index.js`, lines 356-398) -/

/-- `Array.prototype.slice(start, end)` for `0 <= start`, `0 <= end`: the elements at the
indices `start, ..., end - 1` that exist. -/
def slice {α : Type} (arr : List α) (start stop : Nat) : List α := (arr.take stop).drop start

/-- The loop of `chunkArray`,
`for (let i = 0; i < arr.length; i += size) chunks.push(arr.slice(i, i + size))`,
from the state `(i, chunks)`; `none` when the fuel runs out. -/
def chunkArrayLoop {α : Type} (arr : List α) (size : Nat) :
    Nat → Nat → List (List α) → Option (List (List α))
  | 0, _, _ => none
  | fuel + 1, i, chunks =>
    if i < arr.length then
      chunkArrayLoop arr size fuel (i + size) (chunks ++ [slice arr i (i + size)])
    else some chunks

/-- `chunkArray(arr, size)`. -/
def chunkArray {α : Type} (fuel : Nat) (arr : List α) (size : Nat) : Option (List (List α)) :=
  chunkArrayLoop arr size fuel 0 []

/-- The `pages` that `renderInvoiceItemsPdf(items, options)` hands to the template:
`chunkArray(Array.isArray(items) ? items : [], rowsPerPage)`; `items` is `none` when the
argument is not an array, and `rowsPerPage` defaults to 28. -/
def renderInvoiceItemsPages {α : Type} (fuel : Nat) (items : Option (List α))
    (rowsPerPage : Option Nat) : Option (List (List α)) :=
  chunkArray fuel (items.getD []) (rowsPerPage.getD 28)

/-! ## Static PDF stamper (`src/index.js`, lines 270-318) -/

/-- The results of a callback `(x, index) => ...` on the elements of an array in order, as in
`xs.forEach((x, index) => out.push(f(x, index)))`; the index counts from the given start. -/
def mapIdxFrom {α β : Type} (f : α → Nat → β) : List α → Nat → List β
  | [], _ => []
  | a :: rest, index => f a index :: mapIdxFrom f rest (index + 1)

/-- The members of the regular-expression class `\s` of JavaScript: the white space and
line terminator code points of ECMAScript. -/
def jsIsWhiteSpace (c : Char) : Bool :=
  let n := c.toNat
  n == 0x9 || n == 0xA || n == 0xB || n == 0xC || n == 0xD || n == 0x20 || n == 0xA0
    || n == 0x1680 || (0x2000 ≤ n && n ≤ 0x200A) || n == 0x2028 || n == 0x2029
    || n == 0x202F || n == 0x205F || n == 0x3000 || n == 0xFEFF

/-- Scanner of `split(/\s+/)`: `cur` is the piece being read and `inSep` tells that the
last character read was white space, so that a run of white space is one separator. -/
def splitWhitespaceGo : List Char → Bool → List Char → List (List Char)
  | [], _, cur => [cur]
  | c :: cs, inSep, cur =>
    if jsIsWhiteSpace c then
      if inSep then splitWhitespaceGo cs true cur
      else cur :: splitWhitespaceGo cs true []
    else splitWhitespaceGo cs false (cur ++ [c])

/-- `String(text).split(/\s+/)`: the pieces between maximal runs of white space; a text
that starts or ends with white space gives an empty first or last piece, and the empty
text gives one empty piece. -/
def splitWhitespace (text : String) : List String :=
  (splitWhitespaceGo text.data false []).map String.mk

/-- A text stamp, the elements of the `lines` argument of `writeTextOnPdf`; a property
that is absent (or not a number, for the numeric ones) is `none`. -/
structure TextField where
  text : Option String := none
  x : Option ℚ := none
  y : Option ℚ := none
  page : Option Int := none
  size : Option ℚ := none
  maxWidth : Option ℚ := none
  lineHeight : Option ℚ := none
  deriving DecidableEq, Repr

/-- One `page.drawText(text, { x, y, size, font, color })` call; font and colour are
the same in every call. -/
structure DrawText where
  text : String
  x : ℚ
  y : ℚ
  size : ℚ
  deriving DecidableEq, Repr

/-- A page: its height (`page.getSize().height`) and the text drawn on it so far. -/
structure Page where
  height : ℚ
  drawn : List DrawText
  deriving DecidableEq, Repr

/-- The embedded font, as far as the stamper uses it: the width `font.widthOfTextAtSize`
gives, whether `font.widthOfTextAtSize(text, size)` returns for a text (`canMeasure`) and
whether `page.drawText(text, ...)` with the font returns for a text (`canDraw`); both throw
on a text the font cannot encode. -/
structure Font where
  widthOfTextAtSize : String → ℚ → ℚ
  canMeasure : String → Bool
  canDraw : String → Bool

/-- One turn of the loop `for (const w of words)` of the word wrap, on the state
`(curr, wrapped)`; a string is truthy when it is not empty. -/
def wrapStep (font : Font) (size maxWidth : ℚ) (st : String × List String) (w : String) :
    String × List String :=
  let curr := st.1
  let wrapped := st.2
  let candidate := if curr ≠ "" then curr ++ " " ++ w else w
  let width := font.widthOfTextAtSize candidate size
  if width ≤ maxWidth then (candidate, wrapped)
  else (w, if curr ≠ "" then wrapped ++ [curr] else wrapped)

/-- Line 304: `if (curr) wrapped.push(curr)`, after the loop. -/
def wrapFinish (st : String × List String) : List String :=
  if st.1 ≠ "" then st.2 ++ [st.1] else st.2

/-- The word wrap of `writeTextOnPdf` (lines 290-304): the array `wrapped` that is drawn. -/
def wrapLines (font : Font) (size maxWidth : ℚ) (text : String) : List String :=
  let words := splitWhitespace text
  wrapFinish (words.foldl (wrapStep font size maxWidth) ("", []))

/-- `PDFDocument.getPage(index)`: asserts `0 <= index <= pageCount - 1`. -/
def getPage (doc : List Page) (index : Int) : Option Page :=
  if 0 ≤ index ∧ index ≤ (doc.length : Int) - 1 then doc[index.toNat]? else none

/-- The page index that `writeTextOnPdf` resolves for a field (lines 277-278). -/
def clampedIndex (line : TextField) (pageCount : Nat) : Int :=
  let pageIndex : Int := line.page.getD 0
  min (max 0 pageIndex) ((pageCount : Int) - 1)

/-- The `drawText` calls that `writeTextOnPdf` makes for one field on a page of the given
height (lines 280-312). -/
def fieldDrawing (font : Font) (height : ℚ) (line : TextField) : List DrawText :=
  let text := line.text.getD ""
  let x := line.x.getD 40
  let y := line.y.getD (height - 40)
  let size := line.size.getD 8
  match line.maxWidth with
  | some maxWidth =>
    if maxWidth > 0 then
      let lineHeight := line.lineHeight.getD 10
      mapIdxFrom (fun ln idx => DrawText.mk ln x (y - (idx : ℚ) * lineHeight) size)
        (wrapLines font size maxWidth text) 0
    else [DrawText.mk text x y size]
  | none => [DrawText.mk text x y size]

/-- The texts that the word wrap measures, in order: the `candidate` of every turn of the
loop started in the state `st`. -/
def wrapCandidates (font : Font) (size maxWidth : ℚ) :
    String × List String → List String → List String
  | _, [] => []
  | st, w :: ws =>
    (if st.1 ≠ "" then st.1 ++ " " ++ w else w)
      :: wrapCandidates font size maxWidth (wrapStep font size maxWidth st w) ws

/-- Whether every call into the font that `writeTextOnPdf` makes for a field returns: with
a positive `maxWidth` the measuring of every candidate of the word wrap and the drawing of
every wrapped line, otherwise the drawing of the text. -/
def fieldEncodable (font : Font) (line : TextField) : Bool :=
  let text := line.text.getD ""
  let size := line.size.getD 8
  match line.maxWidth with
  | some maxWidth =>
    if maxWidth > 0 then
      (wrapCandidates font size maxWidth ("", []) (splitWhitespace text)).all font.canMeasure
        && (wrapLines font size maxWidth text).all font.canDraw
    else font.canDraw text
  | none => font.canDraw text

/-- The body of the loop `for (const line of lines)` of `writeTextOnPdf`; it throws when
the page lookup or a call into the font throws. -/
def writeTextField (font : Font) (pageCount : Nat) (doc : List Page) (line : TextField) :
    Option (List Page) :=
  match getPage doc (clampedIndex line pageCount) with
  | none => none
  | some page =>
    if fieldEncodable font line then
      some (doc.set (clampedIndex line pageCount).toNat
        (Page.mk page.height (page.drawn ++ fieldDrawing font page.height line)))
    else none

/-- The loop `for (const line of lines)` of `writeTextOnPdf`. -/
def writeTextFields (font : Font) (pageCount : Nat) : List Page → List TextField →
    Option (List Page)
  | doc, [] => some doc
  | doc, line :: rest =>
    (writeTextField font pageCount doc line).bind fun doc1 =>
      writeTextFields font pageCount doc1 rest

/-- The default page that `save` gives a document without pages: A4, 841.89 points high. -/
def defaultPage : Page := Page.mk 841.89 []

/-- `writeTextOnPdf(inputPath, outputPath, lines)` on page lists: the pages of the file
written at `outputPath`. -/
def writeTextOnPdf (font : Font) (doc : List Page) (lines : List TextField) :
    Option (List Page) :=
  (writeTextFields font doc.length doc lines).map (save defaultPage)

/-! ### Counting the wrapped lines (used by the proofs) -/

/-- The number of lines the word wrap emits when its loop is in the state `curr` and the
words `ws` are still to be read. -/
def wrapCount (font : Font) (size maxWidth : ℚ) : String → List String → Nat
  | curr, [] => if curr ≠ "" then 1 else 0
  | curr, w :: ws =>
    if font.widthOfTextAtSize (if curr ≠ "" then curr ++ " " ++ w else w) size ≤ maxWidth then
      wrapCount font size maxWidth (if curr ≠ "" then curr ++ " " ++ w else w) ws
    else (if curr ≠ "" then 1 else 0) + wrapCount font size maxWidth w ws

/-- The width of a text that is additive over its characters. -/
def textWidth (adv : Char → ℚ) (s : String) : ℚ := (s.data.map adv).sum

/-- The width that the line `curr` adds to the candidate made from it: nothing for the
empty line, its own width and a space otherwise. -/
def wrapLoad (adv : Char → ℚ) (curr : String) : ℚ :=
  if curr ≠ "" then textWidth adv curr + adv ' ' else 0

/-- A font in which every character advances by the font size. -/
def squareFont : Font :=
  { widthOfTextAtSize := fun s size => (s.data.map fun _ => size).sum,
    canMeasure := fun s => s.data.all fun c => c.toNat < 256,
    canDraw := fun s => s.data.all fun c => c.toNat < 256 }

/-- A field that is wrapped at the width of six characters of the default size 8. -/
def sampleWrapField : TextField := { text := some "ab cd efg", maxWidth := some 48 }

/-! ## JavaScript numbers with integer values (the amounts of an order) -/

/-- A JavaScript number, as far as the amounts of an order go: a double whose value is an
integer, an infinity, or `NaN`. -/
inductive JsNumber where
  | finite (value : Int)
  | infinity (negative : Bool)
  | nan
  deriving DecidableEq, Repr

/-- The number of binary digits of a natural number, counted with the fuel given. -/
def bitLengthFrom : Nat → Nat → Nat
  | 0, _ => 0
  | fuel + 1, a => if a = 0 then 0 else bitLengthFrom fuel (a / 2) + 1

/-- The number of binary digits of a natural number. -/
def bitLength (a : Nat) : Nat := bitLengthFrom a a

/-- The double nearest to an integer, ties going to the even significand of 53 bits, and
an infinity beyond the doubles: the value that `JSON.parse` reads from an integer numeral,
and the value of an arithmetic result that is exactly `n`. -/
def roundDouble (n : Int) : JsNumber :=
  let a := n.natAbs
  if a ≤ 2 ^ 53 then JsNumber.finite n
  else
    let e := bitLength a - 53
    let q := a / 2 ^ e
    let r := a % 2 ^ e
    let half := 2 ^ (e - 1)
    let q1 := if half < r ∨ (r = half ∧ q % 2 = 1) then q + 1 else q
    let v := q1 * 2 ^ e
    if 1024 < bitLength v then JsNumber.infinity (decide (n < 0))
    else JsNumber.finite (if n < 0 then -(v : Int) else (v : Int))

/-- `x + y` for two numbers. -/
def jsAdd (x y : JsNumber) : JsNumber :=
  match x, y with
  | JsNumber.finite a, JsNumber.finite b => roundDouble (a + b)
  | JsNumber.finite _, JsNumber.infinity t => JsNumber.infinity t
  | JsNumber.infinity s, JsNumber.finite _ => JsNumber.infinity s
  | JsNumber.infinity s, JsNumber.infinity t => if s = t then JsNumber.infinity s else JsNumber.nan
  | _, _ => JsNumber.nan

/-- `x - y` for two numbers. -/
def jsSub (x y : JsNumber) : JsNumber :=
  match x, y with
  | JsNumber.finite a, JsNumber.finite b => roundDouble (a - b)
  | JsNumber.finite _, JsNumber.infinity t => JsNumber.infinity (!t)
  | JsNumber.infinity s, JsNumber.finite _ => JsNumber.infinity s
  | JsNumber.infinity s, JsNumber.infinity t => if s = t then JsNumber.nan else JsNumber.infinity s
  | _, _ => JsNumber.nan

/-- The number of decimal digits of a natural number. -/
def decimalLength (x : Nat) : Nat := (toString x).length

/-- The digit strings of `k` digits that stand for the double `x`: the pairs `(s, m)` with
`s` of `k` digits and `s * 10 ^ m` rounding to `x`. -/
def digitCandidates (x k : Nat) : List (Nat × Nat) :=
  (([decimalLength x - k - 1, decimalLength x - k, decimalLength x - k + 1].map
      fun m => [(x / 10 ^ m, m), (x / 10 ^ m + 1, m)]).flatten).filter
    fun c => decide (10 ^ (k - 1) ≤ c.1) && decide (c.1 < 10 ^ k)
      && decide (roundDouble ((c.1 * 10 ^ c.2 : Nat) : Int) = JsNumber.finite (x : Int))

/-- The order in which candidates are preferred: nearer to `x` first, then an even `s`. -/
def candidateKey (x : Nat) (c : Nat × Nat) : List Nat :=
  [Int.natAbs (((c.1 * 10 ^ c.2 : Nat) : Int) - (x : Int)), c.1 % 2, c.1, c.2]

/-- The preferred candidate of a list. -/
def bestCandidate (x : Nat) : List (Nat × Nat) → Option (Nat × Nat)
  | [] => none
  | c :: cs =>
    match bestCandidate x cs with
    | none => some c
    | some d => if candidateKey x c ≤ candidateKey x d then some c else some d

/-- The search for the shortest digit string: the preferred candidate of the least number
of digits, from `k` digits on. -/
def shortestDigitsFrom (x : Nat) : Nat → Nat → Nat × Nat
  | 0, _ => (x, 0)
  | fuel + 1, k =>
    match bestCandidate x (digitCandidates x k) with
    | some c => c
    | none => shortestDigitsFrom x fuel (k + 1)

/-- The shortest digits `s` and the power of ten `m` with which `Number::toString` writes
the double `x`. -/
def shortestDigits (x : Nat) : Nat × Nat := shortestDigitsFrom x (decimalLength x) 1

/-- The text of `s * 10 ^ m`: the digits and the zeros up to 21 digits, the exponent form
from 22 digits on. -/
def digitsText (s m : Nat) : String :=
  if (toString s).length + m ≤ 21 then toString s ++ String.mk (List.replicate m '0')
  else if (toString s).length = 1 then
    toString s ++ "e+" ++ toString ((toString s).length + m - 1)
  else
    String.mk ((toString s).data.take 1) ++ "." ++ String.mk ((toString s).data.drop 1)
      ++ "e+" ++ toString ((toString s).length + m - 1)

/-- The text of a double with a natural value: up to `2 ^ 53`, where every integer is a
double, its decimal text; above, the shortest digits that give the double back. -/
def naturalText (x : Nat) : String :=
  if x ≤ 2 ^ 53 then toString x else digitsText (shortestDigits x).1 (shortestDigits x).2

/-- The text of a number in a template literal (`Number::toString`). -/
def jsNumberText : JsNumber → String
  | JsNumber.nan => "NaN"
  | JsNumber.infinity false => "Infinity"
  | JsNumber.infinity true => "-Infinity"
  | JsNumber.finite n => if n < 0 then "-" ++ naturalText n.natAbs else naturalText n.natAbs

/-! ## Template field mapper (`src/index.js`, lines 422-501) -/

/-- The `address` object of a shipment record; a missing (or `null`) property is `none`. -/
structure Address where
  name : Option String := none
  addressLine1 : Option String := none
  city : Option String := none
  countryCode : Option String := none
  deriving DecidableEq, Repr

/-- A line item of a shipment record. -/
structure Item where
  description : Option String := none
  name : Option String := none
  quantity : Option Int := none
  deriving DecidableEq, Repr

/-- The `order` object of a shipment record: each amount is optional and is the integer
numeral of the request body; the number that the code holds for a numeral `n` is the double
`roundDouble n`. Amounts with a fraction are outside this model. -/
structure Order where
  invoice_subtotal : Option Int := none
  subtotal : Option Int := none
  discount_rebate : Option Int := none
  discount : Option Int := none
  freight : Option Int := none
  insurance : Option Int := none
  others : Option Int := none
  weight : Option Int := none
  total_invoice_amount : Option Int := none
  total : Option Int := none
  deriving DecidableEq, Repr

/-- The shipment record, the JSON body of a request; `items` is `none` when the body has
no `items` array. -/
structure ShipmentData where
  address : Option Address := none
  items : Option (List Item) := none
  order : Option Order := none
  shipmentNumber : Option String := none
  trackingNumber : Option String := none
  customerContext : Option String := none
  deriving DecidableEq, Repr

/-- What the mapper reads from outside the shipment record: the formatted current date,
`Date.now()` and `Math.floor(Math.random() * 1000)`. -/
structure MapperEnv where
  currentDate : String
  dateNow : Nat
  random1000 : Nat
  deriving DecidableEq, Repr

/-- `a || b` for an optional string `a`: `a` when it is present and not empty. -/
def strOr (a : Option String) (b : String) : String :=
  match a with
  | some s => if s ≠ "" then s else b
  | none => b

/-- `a || b` for an optional number `a`: `a` when it is present and not zero (the double of
an integer numeral is zero only for the numeral zero). -/
def numOr (a : Option Int) (b : Int) : Int :=
  match a with
  | some n => if n ≠ 0 then n else b
  | none => b

/-- The template literal of the number that was read from the integer numeral `n` of the
request body. -/
def numText (n : Int) : String := jsNumberText (roundDouble n)

/-- `s.split(sep)` for a one-character separator: the pieces between the separators. -/
def splitOnChar (sep : Char) : List Char → List Char → List (List Char)
  | [], cur => [cur]
  | c :: cs, cur =>
    if c = sep then cur :: splitOnChar sep cs [] else splitOnChar sep cs (cur ++ [c])

/-- `description.split(' ')`. -/
def splitSpace (s : String) : List String :=
  (splitOnChar ' ' s.data []).map String.mk

/-- Line 430: `order.invoice_subtotal || order.subtotal || 0`. -/
def invoiceSubtotal (order : Order) : Int := numOr order.invoice_subtotal (numOr order.subtotal 0)

/-- Line 431: `order.discount_rebate || order.discount || 0`. -/
def discountRebate (order : Order) : Int := numOr order.discount_rebate (numOr order.discount 0)

/-- Line 432: `order.freight || 0`. -/
def freight (order : Order) : Int := numOr order.freight 0

/-- Line 433: `order.insurance || 0`. -/
def insurance (order : Order) : Int := numOr order.insurance 0

/-- Line 434: `order.others || 0`. -/
def others (order : Order) : Int := numOr order.others 0

/-- Line 436: `order.total_invoice_amount || order.total || (invoiceSubtotal -
discountRebate + freight + insurance + others)`. -/
def totalInvoiceAmount (order : Order) : JsNumber :=
  if numOr order.total_invoice_amount 0 ≠ 0 then roundDouble (numOr order.total_invoice_amount 0)
  else if numOr order.total 0 ≠ 0 then roundDouble (numOr order.total 0)
  else
    jsAdd (jsAdd (jsAdd
      (jsSub (roundDouble (invoiceSubtotal order)) (roundDouble (discountRebate order)))
      (roundDouble (freight order))) (roundDouble (insurance order)))
      (roundDouble (others order))

/-- Line 437: `"INV-" + Date.now() + "-" + Math.floor(Math.random() * 1000)`. -/
def invoiceNumber (env : MapperEnv) : String :=
  "INV-" ++ toString env.dateNow ++ "-" ++ toString env.random1000

/-- Line 427: the items as one text, `description x quantity` joined by `; `. -/
def itemSummary (items : List Item) : String :=
  "; ".intercalate
    (items.map fun i => strOr i.description "Item" ++ " x" ++ numText (numOr i.quantity 1))

/-- A field with a text and a position on the first page. -/
def fieldAt (text : String) (x y : ℚ) : TextField :=
  { text := some text, x := some x, y := some y }

/-- A field with a text, a position and a page index. -/
def fieldOn (text : String) (x y : ℚ) (page : Int) : TextField :=
  { text := some text, x := some x, y := some y, page := some page }

/-- Line 475: the y positions of the four product lines of the TSCA form. -/
def productYPositions : List ℚ := [539, 554, 569, 584]

/-- Lines 477-485: the field of the product at position `index` of the group. -/
def tscaProductField (item : Item) (index : Nat) : TextField :=
  let description := strOr item.description (strOr item.name "")
  let words := " ".intercalate ((splitSpace description).take 4)
  { text := some words, x := some 50, y := productYPositions[index]? }

/-- `buildCustomsLinesFromShipment(shipmentData, templateType)`. -/
def buildCustomsLinesFromShipment (env : MapperEnv) (shipmentData : ShipmentData)
    (templateType : String) : List TextField :=
  let address := shipmentData.address.getD {}
  let items := shipmentData.items.getD []
  let order := shipmentData.order.getD {}
  let currentDate := env.currentDate
  let weight := order.weight
  if templateType = "INVOICES" then
    [ fieldAt (strOr address.name "") 84 512,
      fieldAt (strOr address.addressLine1 "") 23 500,
      fieldAt (strOr address.city "") 23 488,
      fieldAt (strOr address.countryCode "") 23 476,
      fieldAt currentDate 333 655,
      fieldAt (invoiceNumber env) 358 645,
      fieldOn (numText (invoiceSubtotal order)) 448 690 1,
      fieldOn (numText (discountRebate order)) 448 676 1,
      fieldOn (numText (invoiceSubtotal order)) 448 662 1,
      fieldOn (numText (freight order)) 448 649 1,
      fieldOn (numText (insurance order)) 448 635 1,
      fieldOn (numText (others order)) 448 622 1,
      fieldOn (jsNumberText (totalInvoiceAmount order)) 448 608 1,
      fieldAt (strOr shipmentData.shipmentNumber "") 359 712,
      fieldOn (if numOr weight 0 ≠ 0 then numText (numOr weight 0) else "") 448 577 1,
      fieldOn (if items.length ≠ 0 then toString items.length else "") 448 589 1 ]
  else if templateType = "TSCA" then
    [ fieldAt (strOr shipmentData.shipmentNumber "") 240 127,
      fieldAt currentDate 327 720 ]
      ++ mapIdxFrom tscaProductField (slice items 0 4) 0
  else if templateType = "232_FORM" then
    [ fieldAt currentDate 77 690 ]
  else
    [ fieldAt (strOr address.name "") 84 512,
      fieldAt (itemSummary items) 30 432 ]

/-! ## Document pipeline orchestrator (`src/index.js`, lines 527-702) -/

/-- What `new Date()` gives: `getFullYear()`, `getMonth()` (January is 0), `getDate()`,
`getHours()`, `getMinutes()` and `getSeconds()`. -/
structure DateTime where
  fullYear : Nat
  month : Nat
  date : Nat
  hours : Nat
  minutes : Nat
  seconds : Nat
  deriving DecidableEq, Repr

/-- Lines 627 and 672: `pad = (n) => String(n).padStart(2, '0')`. -/
def pad (n : Nat) : String :=
  let s := toString n
  String.mk (List.replicate (2 - s.length) '0') ++ s

/-- Lines 628 and 673: the `shipmentDateTime` text built from `now`. -/
def shipmentDateTime (now : DateTime) : String :=
  toString now.fullYear ++ "-" ++ pad (now.month + 1) ++ "-" ++ pad now.date ++ "-"
    ++ pad now.hours ++ "." ++ pad now.minutes ++ "." ++ pad now.seconds

/-- The data a successful upload call returns, as far as the pipeline reads it:
`UploadResponse.FormsHistoryDocumentID.DocumentID`, and the rest of the body. -/
structure UploadResponse where
  documentId : Option String
  body : String
  deriving DecidableEq, Repr

/-- The data a successful association call returns. -/
structure PushResponse where
  body : String
  deriving DecidableEq, Repr

/-- How a call of `upsUploadUserCreatedForm` or `upsPushDocumentToShipment` ends: it
returns data, or `null` when there is no access token, or it throws an error. -/
inductive CallOutcome (α : Type) where
  | returned (value : Option α)
  | threw (message : String)
  deriving DecidableEq, Repr

/-- The `options` argument of `upsUploadUserCreatedForm`. -/
structure UploadOptions where
  fileName : String
  fileFormat : String
  documentType : String
  customerContext : String
  deriving DecidableEq, Repr

/-- The `params` argument of `upsPushDocumentToShipment`. -/
structure PushParams where
  documentId : Option String
  shipmentIdentifier : String
  trackingNumber : String
  shipmentDateTime : String
  customerContext : String
  deriving DecidableEq, Repr

/-- An element of `uploadResults`; `uploadResponse` and `pushResponse` are `none` when the
object has no such property and `some none` when the property is `null`. -/
structure UploadResult where
  template : String
  outputPath : String
  uploadResponse : Option (Option UploadResponse) := none
  pushResponse : Option (Option PushResponse) := none
  deriving DecidableEq, Repr

/-- The effects of a request on the file system and on the carrier, in the order the
handler makes them. -/
inductive Action where
  | writeTextOnPdf (inputPath outputPath : String) (lines : List TextField)
  | renderInvoiceItemsPdf (items : List Item) (shipmentNumber : String) (rowsPerPage : Nat)
      (outPath : String)
  | mergePdfInsertAfter (basePdfPath insertPdfPath : String) (insertAfterPageIndex : Int)
      (outPath : String)
  | moveSync (src dest : String)
  | copySync (src dest : String)
  | fillPdfForm (pdfPath : String) (lines : List TextField)
  | upload (filePath : String) (options : UploadOptions)
  | push (params : PushParams)
  deriving DecidableEq, Repr

/-- The JSON response of the route. -/
inductive Response where
  | ok (shipmentNumber : String) (uploadResults : List UploadResult)
  | error (status : Nat) (error : String)
  deriving DecidableEq, Repr

/-- The surroundings of a request: the directories, the functions of `path`, which files
exist when the request starts, the clock, how each call to the carrier ends, and
`failure`: the message of the error that a stamping, rendering, merging or moving step of
the invoice and 232 forms throws, `none` when the step returns. The carrier calls and the
clock are told apart by the file being uploaded, and every file is uploaded once in a
request. The copying and filling steps of the TSCA branch are taken to return. -/
structure PipelineEnv where
  mapper : MapperEnv
  blanksDir : String
  outputDir : String
  pathJoin : String → String → String
  pathBasename : String → String
  existsSync : String → Bool
  now : String → DateTime
  upload : String → UploadOptions → CallOutcome UploadResponse
  push : String → PushParams → CallOutcome PushResponse
  failure : Action → Option String

/-- The variables the handler updates while it runs: `uploadResults`, and the effects made
so far. -/
structure PipelineState where
  uploadResults : List UploadResult := []
  effects : List Action := []
  deriving DecidableEq, Repr

/-- An element of `blanks` (lines 539-543). -/
structure Blank where
  file : String
  type : String
  deriving DecidableEq, Repr

/-- Lines 539-543. -/
def blanks : List Blank :=
  [ { file := "INVOICES_BLANK.pdf", type := "COMMERCIAL_INVOICE" },
    { file := "232_FORM_BLANK.pdf", type := "OTHER" },
    { file := "TSCA_BLANK.pdf", type := "OTHER" } ]

/-- `path.parse(file).name` for a file name without directories: the name without its
last extension. -/
def pathParseName (file : String) : String :=
  let rev := file.data.reverse
  let ext := rev.takeWhile (fun c => c ≠ '.')
  if ext.length + 1 < rev.length then String.mk (rev.drop (ext.length + 1)).reverse
  else file

/-- Lines 533-537, read at a file name: `templateLines[file] || []`. -/
def templateLines (env : PipelineEnv) (shipmentData : ShipmentData) (file : String) :
    List TextField :=
  if file = "INVOICES_BLANK.pdf" then
    buildCustomsLinesFromShipment env.mapper shipmentData "INVOICES"
  else if file = "TSCA_BLANK.pdf" then
    buildCustomsLinesFromShipment env.mapper shipmentData "TSCA"
  else if file = "232_FORM_BLANK.pdf" then
    buildCustomsLinesFromShipment env.mapper shipmentData "232_FORM"
  else []

/-- Records an effect. -/
def PipelineState.log (st : PipelineState) (a : Action) : PipelineState :=
  { st with effects := st.effects ++ [a] }

/-- `uploadResults.push(result)`. -/
def PipelineState.pushResult (st : PipelineState) (r : UploadResult) : PipelineState :=
  { st with uploadResults := st.uploadResults ++ [r] }

/-- The `options` of both upload calls (lines 616-621 and 661-666). -/
def uploadOptions (env : PipelineEnv) (shipmentData : ShipmentData) (filePath : String) :
    UploadOptions :=
  { fileName := env.pathBasename filePath, fileFormat := "pdf", documentType := "013",
    customerContext := strOr shipmentData.customerContext "" }

/-- The `params` of both association calls (lines 632-638 and 675-681). -/
def pushParams (env : PipelineEnv) (shipmentNumber : String) (shipmentData : ShipmentData)
    (filePath : String) (documentId : Option String) : PushParams :=
  { documentId := documentId,
    shipmentIdentifier := shipmentNumber,
    trackingNumber := strOr shipmentData.trackingNumber shipmentNumber,
    shipmentDateTime := shipmentDateTime (env.now filePath),
    customerContext := strOr shipmentData.customerContext "" }

/-- `uploadRes?.UploadResponse?.FormsHistoryDocumentID?.DocumentID`. -/
def documentIdOf (uploadRes : Option UploadResponse) : Option String :=
  uploadRes.bind fun r => r.documentId

/-- Lines 659-695: upload and association of the document of a form kind other than
TSCA. The result object is pushed whatever happens inside the `try`. -/
def uploadDocument (env : PipelineEnv) (shipmentNumber : String)
    (shipmentData : ShipmentData) (file outputPath : String) (st : PipelineState) :
    PipelineState :=
  let result : UploadResult := { template := file, outputPath := outputPath }
  let options := uploadOptions env shipmentData outputPath
  let st1 := st.log (Action.upload outputPath options)
  match env.upload outputPath options with
  | CallOutcome.threw _ => st1.pushResult result
  | CallOutcome.returned uploadRes =>
    let params := pushParams env shipmentNumber shipmentData outputPath
      (documentIdOf uploadRes)
    let st2 := st1.log (Action.push params)
    match env.push outputPath params with
    | CallOutcome.threw _ => st2.pushResult result
    | CallOutcome.returned pushRes =>
      st2.pushResult
        { result with uploadResponse := some uploadRes, pushResponse := some pushRes }

/-- Lines 614-652: upload and association of the TSCA form number `i + 1`. A result is
pushed only after the association call has returned. -/
def uploadTscaForm (env : PipelineEnv) (shipmentNumber : String)
    (shipmentData : ShipmentData) (i : Nat) (finalOutputPath : String)
    (st : PipelineState) : PipelineState :=
  let options := uploadOptions env shipmentData finalOutputPath
  let st1 := st.log (Action.upload finalOutputPath options)
  match env.upload finalOutputPath options with
  | CallOutcome.threw _ => st1
  | CallOutcome.returned uploadRes =>
    let documentId := documentIdOf uploadRes
    if strOr documentId "" ≠ "" then
      let params := pushParams env shipmentNumber shipmentData finalOutputPath documentId
      let st2 := st1.log (Action.push params)
      match env.push finalOutputPath params with
      | CallOutcome.threw _ => st2
      | CallOutcome.returned pushRes =>
        st2.pushResult
          { template := "TSCA_BLANK.pdf (Form " ++ toString (i + 1) ++ ")",
            outputPath := finalOutputPath,
            uploadResponse := some uploadRes,
            pushResponse := some pushRes }
    else st1

/-- Line 579. -/
def maxProductsPerForm : Nat := 4

/-- Lines 582-585: `itemGroups`, built by the loop of `chunkArray` with the step
`maxProductsPerForm`. The loop makes at most `items.length` turns, so the fuel
`items.length + 1` is enough. -/
def itemGroupsOf (items : List Item) : List (List Item) :=
  (chunkArrayLoop items maxProductsPerForm (items.length + 1) 0 []).getD []

/-- Lines 589-590: the output file name of the TSCA form number `i + 1` of `groupCount`,
the second argument of `path.join`. -/
def tscaOutputName (shipmentNumber : String) (file : String) (groupCount i : Nat) : String :=
  let formNumber := if groupCount > 1 then "_" ++ toString (i + 1) else ""
  pathParseName file ++ "_" ++ shipmentNumber ++ formNumber ++ ".pdf"

/-- Line 590: the output path of the TSCA form number `i + 1` of `groupCount`. -/
def tscaOutputPath (env : PipelineEnv) (shipmentNumber : String) (file : String)
    (groupCount i : Nat) : String :=
  env.pathJoin env.outputDir (tscaOutputName shipmentNumber file groupCount i)

/-- Lines 589-652: the body of the loop over `itemGroups`, for the group at index `i`. -/
def processTscaGroup (env : PipelineEnv) (shipmentNumber : String)
    (shipmentData : ShipmentData) (file inputPath outputPath : String) (groupCount : Nat)
    (st : PipelineState) (group : List Item) (i : Nat) : PipelineState :=
  let finalOutputPath := tscaOutputPath env shipmentNumber file groupCount i
  let st1 :=
    if finalOutputPath ≠ outputPath then st.log (Action.copySync inputPath finalOutputPath)
    else if !env.existsSync outputPath then st.log (Action.copySync inputPath outputPath)
    else st
  let formShipmentData : ShipmentData := { shipmentData with items := some group }
  let tscaLines := buildCustomsLinesFromShipment env.mapper formShipmentData "TSCA"
  let st2 := st1.log (Action.fillPdfForm finalOutputPath tscaLines)
  uploadTscaForm env shipmentNumber shipmentData i finalOutputPath st2

/-- Line 588: `for (let i = start; i < itemGroups.length; i++)`, over the groups from
index `start` on. -/
def processTscaGroups (env : PipelineEnv) (shipmentNumber : String)
    (shipmentData : ShipmentData) (file inputPath outputPath : String) (groupCount : Nat) :
    List (List Item) → Nat → PipelineState → PipelineState
  | [], _, st => st
  | group :: rest, i, st =>
    processTscaGroups env shipmentNumber shipmentData file inputPath outputPath groupCount
      rest (i + 1)
      (processTscaGroup env shipmentNumber shipmentData file inputPath outputPath groupCount
        st group i)

/-- Lines 576-657: the branch of the TSCA form. -/
def tscaBranch (env : PipelineEnv) (shipmentNumber : String) (shipmentData : ShipmentData)
    (file inputPath outputPath : String) (st : PipelineState) : PipelineState :=
  let items := shipmentData.items.getD []
  let itemGroups := itemGroupsOf items
  processTscaGroups env shipmentNumber shipmentData file inputPath outputPath
    itemGroups.length itemGroups 0 st

/-- An awaited step that may throw: when it returns its effect is recorded, when it throws
the second component is the message of the error. -/
def runStep (env : PipelineEnv) (st : PipelineState) (a : Action) :
    PipelineState × Option String :=
  match env.failure a with
  | some message => (st, some message)
  | none => (st.log a, none)

/-- Sequencing inside the `try` of the handler: what follows a step runs only when the step
has not thrown. -/
def thenStep (r : PipelineState × Option String)
    (next : PipelineState → PipelineState × Option String) : PipelineState × Option String :=
  match r with
  | (st, none) => next st
  | (st, some message) => (st, some message)

/-- Lines 561-574: the paginated items of the invoice, rendered and inserted after the
first page of the stamped invoice. -/
def invoiceItemsFlow (env : PipelineEnv) (shipmentNumber : String)
    (shipmentData : ShipmentData) (file outputPath : String) (st : PipelineState) :
    PipelineState × Option String :=
  let itemsPdfPath := env.pathJoin env.outputDir ("INVOICE_ITEMS_" ++ shipmentNumber ++ ".pdf")
  let mergedPath := env.pathJoin env.outputDir
    (pathParseName file ++ "_" ++ shipmentNumber ++ "_MERGED.pdf")
  thenStep
    (runStep env st
      (Action.renderInvoiceItemsPdf (shipmentData.items.getD []) shipmentNumber 28
        itemsPdfPath))
    fun st1 =>
      thenStep (runStep env st1 (Action.mergePdfInsertAfter outputPath itemsPdfPath 0 mergedPath))
        fun st2 => runStep env st2 (Action.moveSync mergedPath outputPath)

/-- Lines 548-696: the body of the loop over `blanks`. The second component is the message
of the error the body throws, if it throws. -/
def processBlank (env : PipelineEnv) (shipmentNumber : String) (shipmentData : ShipmentData)
    (st : PipelineState) (blank : Blank) : PipelineState × Option String :=
  let inputPath := env.pathJoin env.blanksDir blank.file
  let baseName := pathParseName blank.file ++ "_" ++ shipmentNumber ++ ".pdf"
  let outputPath := env.pathJoin env.outputDir baseName
  if !env.existsSync inputPath then (st, some ("Missing template: " ++ inputPath))
  else
    thenStep
      (if blank.file ≠ "TSCA_BLANK.pdf" then
        runStep env st (Action.writeTextOnPdf inputPath outputPath
          (templateLines env shipmentData blank.file))
      else (st, none))
      fun st1 =>
        thenStep
          (if blank.file = "INVOICES_BLANK.pdf" then
            invoiceItemsFlow env shipmentNumber shipmentData blank.file outputPath st1
          else (st1, none))
          fun st2 =>
            if blank.file = "TSCA_BLANK.pdf" then
              (tscaBranch env shipmentNumber shipmentData blank.file inputPath outputPath st2,
                none)
            else
              (uploadDocument env shipmentNumber shipmentData blank.file outputPath st2, none)

/-- Line 548: `for (const blank of blanks)`; the loop ends at the first body that throws. -/
def processBlanks (env : PipelineEnv) (shipmentNumber : String) (shipmentData : ShipmentData) :
    List Blank → PipelineState → PipelineState × Option String
  | [], st => (st, none)
  | blank :: rest, st =>
    match processBlank env shipmentNumber shipmentData st blank with
    | (st1, none) => processBlanks env shipmentNumber shipmentData rest st1
    | (st1, some message) => (st1, some message)

/-- Lines 698-701: the response after the loop over the blanks, `res.json(...)` when the
loop has ended and `res.status(500).json(...)` with
`err.message || 'Doc generation/upload failed'` when it has thrown. -/
def respond (shipmentNumber : String) (r : PipelineState × Option String) :
    Response × List Action :=
  match r with
  | (st, none) => (Response.ok shipmentNumber st.uploadResults, st.effects)
  | (st, some message) =>
    (Response.error 500 (if message ≠ "" then message else "Doc generation/upload failed"),
      st.effects)

/-- The handler of `POST /generate-and-upload-docs/:shipmentNumber`: the response, and the
effects of the request. -/
def generateAndUploadDocs (env : PipelineEnv) (shipmentNumber : String) (body : ShipmentData) :
    Response × List Action :=
  respond shipmentNumber
    (processBlanks env shipmentNumber { body with shipmentNumber := some shipmentNumber }
      blanks {})

/-! ## Sample data and observations (used by the witnesses and the proofs) -/

/-- An order whose subtotal is `2 ^ 53` and whose freight is 1, with no total: the sum
`2 ^ 53 + 1` is not a double. -/
def largeSubtotalOrder : Order :=
  { subtotal := some 9007199254740992, freight := some 1 }

/-- An order with the amounts of the example of the specification and no total. -/
def sampleOrder : Order :=
  { subtotal := some 100, discount := some 10, freight := some 5, insurance := some 2,
    others := some 1 }

/-- A request environment in which every blank exists and the carrier accepts every
document but the TSCA form, whose upload throws. -/
def tscaUploadFailsEnv : PipelineEnv :=
  { mapper := MapperEnv.mk "11/05/2026" 1762300800000 7,
    blanksDir := "/srv/CUSTOMS_DOCs_BLANK",
    outputDir := "/srv/generated_docs",
    pathJoin := fun dir file => dir ++ "/" ++ file,
    pathBasename := fun p => p,
    existsSync := fun p => p.data.take 24 == "/srv/CUSTOMS_DOCs_BLANK/".data,
    now := fun _ => DateTime.mk 2026 10 5 9 3 7,
    upload := fun p _ =>
      if p = "/srv/generated_docs/TSCA_BLANK_1Z999.pdf" then
        CallOutcome.threw "UPS upload error 500: undefined"
      else CallOutcome.returned (some (UploadResponse.mk (some "DOC1") "")),
    push := fun _ _ => CallOutcome.returned (some (PushResponse.mk "")),
    failure := fun _ => none }

/-- A request for the shipment number `a/b` when the blank of the TSCA form is missing: the
output directory has no folder `INVOICES_BLANK_a`, so writing the stamped invoice throws. -/
def invoiceWriteFailsEnv : PipelineEnv :=
  { tscaUploadFailsEnv with
    existsSync := fun p => p != "/srv/CUSTOMS_DOCs_BLANK/TSCA_BLANK.pdf",
    failure := fun a =>
      match a with
      | Action.writeTextOnPdf _ outputPath _ =>
        if outputPath = "/srv/generated_docs/INVOICES_BLANK_a/b.pdf" then
          some ("ENOENT: no such file or directory, open "
            ++ "/srv/generated_docs/INVOICES_BLANK_a/b.pdf")
        else none
      | _ => none }

/-- A shipment with one item. -/
def oneItemShipment : ShipmentData := { items := some [{ description := some "Solvent" }] }


/-- The stamped TSCA documents among the effects of a request: the `fillPdfForm` calls,
each with its file and the fields written on it. -/
def stampedForms : List Action → List (String × List TextField)
  | [] => []
  | Action.fillPdfForm pdfPath lines :: rest => (pdfPath, lines) :: stampedForms rest
  | _ :: rest => stampedForms rest

/-- A shipment with thirty items. -/
def thirtyItemShipment : ShipmentData := { items := some (List.replicate 30 {}) }

/-- A shipment with five items. -/
def fiveItemShipment : ShipmentData :=
  { items := some
      [ { description := some "Acetone technical grade 99 percent" },
        { name := some "Ethanol" }, {}, { description := some "Toluene" },
        { description := some "Xylene" } ] }

/-- A shipment record without address, shipment number and item texts. -/
def bareShipment : ShipmentData := { items := some [{}, { quantity := some 2 }] }

/-- The words of a line: its pieces between white space that are not empty. -/
def nonEmptyWords (s : String) : List String :=
  (splitWhitespace s).filter (fun w => w ≠ "")

/-- A field whose second word is wider than the wrap width. -/
def wideWordField : TextField := { text := some " ab extraordinarily  cd ", maxWidth := some 48 }

/-! ## Proofs: composer -/

section ComposerProofs

variable {P : Type}

theorem copyPages_range_aux (l : List P) :
    ∀ (n : Nat), n ≤ l.length →
      copyPages l (List.range' (l.length - n) n) = some (l.drop (l.length - n)) := by
  intro n
  induction n with
  | zero => intro _; simp [copyPages]
  | succ n ih =>
    intro h
    have hlt : l.length - (n + 1) < l.length := by omega
    have h1 : l.length - (n + 1) + 1 = l.length - n := by omega
    rw [List.range'_succ, copyPages, List.getElem?_eq_getElem hlt]
    simp only []
    rw [h1, ih (by omega), Option.map_some', ← h1, ← List.drop_eq_getElem_cons hlt]

theorem copyPages_all (doc : List P) : copyPages doc (getPageIndices doc) = some doc := by
  have h := copyPages_range_aux doc doc.length (le_refl _)
  simpa [getPageIndices, getPageCount, List.range_eq_range'] using h

theorem foldl_addPage (pages base : List P) : pages.foldl addPage base = base ++ pages := by
  induction pages generalizing base with
  | nil => simp
  | cons p ps ih => simp [List.foldl_cons, ih, addPage]

theorem mergePdfAppend_eq (blank : P) (base app : List P) :
    mergePdfAppend blank base app = some (save blank (base ++ app)) := by
  simp [mergePdfAppend, copyPages_all, foldl_addPage]

theorem save_of_ne_nil (blank : P) (doc : List P) (h : doc ≠ []) : save blank doc = doc := by
  have hlen : doc.length ≠ 0 := fun h0 => h (List.length_eq_zero.mp h0)
  simp [save, getPageCount, hlen]

theorem save_nil (blank : P) : save blank ([] : List P) = [blank] := by
  simp [save, getPageCount, addPage]

theorem insertPage_at_length (pre post : List P) (index : Int) (page : P)
    (h : index = (pre.length : Int)) :
    insertPage (pre ++ post) index page = some (pre ++ page :: post) := by
  subst h
  have hle : ((pre.length : Nat) : Int) ≤ ((pre ++ post).length : Nat) := by
    simp [List.length_append]
  simp [insertPage, getPageCount]

theorem forEachIdx_insertPage (start : Int) (pages : List P) :
    ∀ (idx : Nat) (pre post : List P), start + (idx : Int) = (pre.length : Int) →
      forEachIdx (fun doc page i => insertPage doc (start + (i : Int)) page) pages idx
        (pre ++ post) = some (pre ++ pages ++ post) := by
  induction pages with
  | nil => intro idx pre post _; simp [forEachIdx]
  | cons p ps ih =>
    intro idx pre post h
    have hstep := ih (idx + 1) (pre ++ [p]) post (by simp [List.length_append]; omega)
    simp only [forEachIdx, insertPage_at_length pre post _ p h, Option.some_bind]
    simpa [List.append_assoc] using hstep

theorem mergePdfInsertAfter_eq (blank : P) (base ins : List P) (k : Int) :
    mergePdfInsertAfter blank base ins k
      = some (save blank
          (base.take (min (max (k + 1) 0) (base.length : Int)).toNat ++ ins
            ++ base.drop (min (max (k + 1) 0) (base.length : Int)).toNat)) := by
  have hs0 : 0 ≤ min (max (k + 1) 0) (base.length : Int) := by
    apply le_min (le_max_right _ _); omega
  have hsn : (min (max (k + 1) 0) (base.length : Int)).toNat ≤ base.length := by
    have := min_le_right (max (k + 1) 0) (base.length : Int); omega
  have h := forEachIdx_insertPage (min (max (k + 1) 0) (base.length : Int)) ins 0
    (base.take (min (max (k + 1) 0) (base.length : Int)).toNat)
    (base.drop (min (max (k + 1) 0) (base.length : Int)).toNat)
    (by simp [List.length_take, hsn])
  rw [List.take_append_drop] at h
  simp only [mergePdfInsertAfter, copyPages_all, Option.some_bind, getPageCount]
  rw [h]
  rfl

end ComposerProofs


/-! ## Proofs: pagination -/

theorem ceil_div_eq (L R : Nat) (hR : 1 ≤ R) : ⌈(L : ℚ) / (R : ℚ)⌉₊ = (L + R - 1) / R := by
  have hRq : (0 : ℚ) < (R : ℚ) := by exact_mod_cast hR
  apply le_antisymm
  · rw [Nat.ceil_le, div_le_iff₀ hRq]
    have h := Nat.lt_div_mul_add (a := L + R - 1) (b := R) (by omega)
    have h2 : L ≤ (L + R - 1) / R * R := by omega
    exact_mod_cast h2
  · rw [Nat.div_le_iff_le_mul_add_pred (by omega)]
    have h : (L : ℚ) ≤ (⌈(L : ℚ) / (R : ℚ)⌉₊ : ℚ) * R := by
      rw [← div_le_iff₀ hRq]; exact Nat.le_ceil _
    have h2 : L ≤ ⌈(L : ℚ) / (R : ℚ)⌉₊ * R := by exact_mod_cast h
    rw [Nat.mul_comm]; omega

theorem slice_succ {α : Type} (arr : List α) (i size : Nat) :
    slice arr i (i + size) = (arr.drop i).take size := by
  simp [slice, List.drop_take]

theorem chunk_count_step (d R : Nat) (hR : 1 ≤ R) (hd : 1 ≤ d) :
    (d + R - 1) / R = (d - R + R - 1) / R + 1 := by
  by_cases h : R ≤ d
  · have : d + R - 1 = (d - R + R - 1) + R := by omega
    rw [this, Nat.add_div_right _ (by omega)]
  · have h1 : d - R + R - 1 = R - 1 := by omega
    have h2 : (R - 1) / R = 0 := Nat.div_eq_of_lt (by omega)
    have h3 : d + R - 1 = (d - 1) + R := by omega
    rw [h1, h2, h3, Nat.add_div_right _ (by omega), Nat.div_eq_of_lt (by omega)]

theorem chunkArrayLoop_spec {α : Type} (arr : List α) (R : Nat) (hR : 1 ≤ R) :
    ∀ (fuel i : Nat) (chunks : List (List α)), arr.length - i < fuel →
      ∃ rest, chunkArrayLoop arr R fuel i chunks = some (chunks ++ rest)
        ∧ rest.flatten = arr.drop i
        ∧ (∀ p ∈ rest, p.length ≤ R)
        ∧ rest.length = (arr.length - i + R - 1) / R := by
  intro fuel
  induction fuel with
  | zero => intro i chunks h; omega
  | succ fuel ih =>
    intro i chunks h
    by_cases hi : i < arr.length
    · obtain ⟨rest, h1, h2, h3, h4⟩ :=
        ih (i + R) (chunks ++ [slice arr i (i + R)]) (by omega)
      refine ⟨slice arr i (i + R) :: rest, ?_, ?_, ?_, ?_⟩
      · simp only [chunkArrayLoop, hi, if_true, h1, List.append_assoc, List.singleton_append]
      · rw [List.flatten_cons, h2, slice_succ, ← List.drop_drop, List.take_append_drop]
      · intro p hp
        rcases List.mem_cons.mp hp with rfl | hp
        · rw [slice_succ, List.length_take]; exact min_le_left _ _
        · exact h3 p hp
      · rw [List.length_cons, h4, chunk_count_step (arr.length - i) R hR (by omega)]
        have : arr.length - (i + R) = arr.length - i - R := by omega
        rw [this]
    · refine ⟨[], ?_, ?_, ?_, ?_⟩
      · simp [chunkArrayLoop, hi]
      · simp [List.drop_eq_nil_of_le (not_lt.mp hi)]
      · simp
      · have h0 : arr.length - i = 0 := by omega
        simp [h0, Nat.div_eq_of_lt (show R - 1 < R by omega)]


/-! ## The composer claims -/

/-- C1, as stated, fails on two documents without pages: `save` adds a default page, so
the written document has one page, not the `0 + 0` pages of base and insert. -/
theorem mergePdfInsertAfter_page_order_counterexample :
    mergePdfInsertAfter "A4" ([] : List String) [] 0 = some ["A4"]
      ∧ mergePdfInsertAfter "A4" ([] : List String) [] 0
          ≠ some (([] : List String).take
                (min (max ((0 : Int) + 1) 0) ((([] : List String).length : Nat) : Int)).toNat
              ++ [] ++ ([] : List String).drop
                (min (max ((0 : Int) + 1) 0) ((([] : List String).length : Nat) : Int)).toNat)
      ∧ ∀ out, mergePdfInsertAfter "A4" ([] : List String) [] 0 = some out →
          out.length ≠ ([] : List String).length + ([] : List String).length := by
  refine ⟨by decide, by decide, ?_⟩
  intro out hout
  have h : mergePdfInsertAfter "A4" ([] : List String) [] 0 = some ["A4"] := by decide
  rw [h] at hout
  cases hout
  decide

/-- C1, amended: for every base page sequence `B` of `n` pages, insert page sequence `I`
of `m` pages with `n + m >= 1` and every integer `k`, `mergePdfInsertAfter(B, I, k)` writes
the first `s` pages of `B`, then the pages of `I` in their order, then the other `n - s`
pages of `B`, where `s = min(max(k + 1, 0), n)`, and the result has `n + m` pages; with
`k = 0` and a base of two pages the first base page stays first and the second stays last;
when neither document has a page the written document is one default blank page. -/
theorem mergePdfInsertAfter_page_order {P : Type} (blank : P) (B I : List P) (k : Int)
    (hpages : 1 ≤ B.length + I.length) :
    mergePdfInsertAfter blank B I k
        = some (B.take (min (max (k + 1) 0) (B.length : Int)).toNat ++ I
            ++ B.drop (min (max (k + 1) 0) (B.length : Int)).toNat)
      ∧ (B.take (min (max (k + 1) 0) (B.length : Int)).toNat ++ I
            ++ B.drop (min (max (k + 1) 0) (B.length : Int)).toNat).length
          = B.length + I.length
      ∧ (((min (max (k + 1) 0) (B.length : Int)).toNat : Nat) : Int)
          = min (max (k + 1) 0) (B.length : Int)
      ∧ (∀ p1 p2 : P, mergePdfInsertAfter blank [p1, p2] I 0 = some ([p1] ++ I ++ [p2]))
      ∧ ∀ j : Int, mergePdfInsertAfter blank ([] : List P) [] j = some [blank] := by
  have hs0 : 0 ≤ min (max (k + 1) 0) (B.length : Int) := by
    apply le_min (le_max_right _ _); omega
  have hsn : (min (max (k + 1) 0) (B.length : Int)).toNat ≤ B.length := by
    have := min_le_right (max (k + 1) 0) (B.length : Int); omega
  have hlen : (B.take (min (max (k + 1) 0) (B.length : Int)).toNat ++ I
      ++ B.drop (min (max (k + 1) 0) (B.length : Int)).toNat).length
        = B.length + I.length := by
    simp only [List.length_append, List.length_take, List.length_drop]
    omega
  refine ⟨?_, hlen, Int.toNat_of_nonneg hs0, ?_, ?_⟩
  · rw [mergePdfInsertAfter_eq, save_of_ne_nil]
    intro hnil
    rw [hnil] at hlen
    simp at hlen
    omega
  · intro p1 p2
    rw [mergePdfInsertAfter_eq, save_of_ne_nil]
    · rfl
    · simp
  · intro j
    rw [mergePdfInsertAfter_eq]
    simp [save_nil]

/-- Witness of C1: two item pages inserted after the first of two base pages. -/
theorem mergePdfInsertAfter_page_order_witness :
    (1 ≤ ["p1", "p2"].length + ["i1", "i2"].length)
      ∧ mergePdfInsertAfter "A4" ["p1", "p2"] ["i1", "i2"] 0
          = some ["p1", "i1", "i2", "p2"] :=
  ⟨by decide,
    ((mergePdfInsertAfter_page_order "A4" ["p1", "p2"] ["i1", "i2"] 0 (by decide)).1).trans
      (by decide)⟩

/-- C2, as stated, fails on two documents without pages: both functions write one default
page, which is not the base pages followed by the insert pages. -/
theorem mergePdfInsertAfter_last_eq_append_counterexample :
    ((getPageCount ([] : List String) : Int) - 1 ≤ 0)
      ∧ mergePdfAppend "A4" ([] : List String) [] = some ["A4"]
      ∧ mergePdfAppend "A4" ([] : List String) [] ≠ some (([] : List String) ++ [])
      ∧ mergePdfInsertAfter "A4" ([] : List String) [] 0
          ≠ some (([] : List String) ++ []) := by
  refine ⟨by decide, by decide, by decide, by decide⟩

/-- C2, amended: for every base document with `baseCount` pages, every insert document and
every integer `afterIndex >= baseCount - 1`, `mergePdfInsertAfter(base, insert, afterIndex)`
writes the page sequence of `mergePdfAppend(base, insert)`; when at least one of the two
documents has a page this is the base pages followed by the insert pages in order, and
when neither has a page it is one default blank page. -/
theorem mergePdfInsertAfter_last_eq_append {P : Type} (blank : P) (base ins : List P)
    (afterIndex : Int) (h : (getPageCount base : Int) - 1 ≤ afterIndex) :
    mergePdfInsertAfter blank base ins afterIndex = mergePdfAppend blank base ins
      ∧ (1 ≤ getPageCount base + getPageCount ins →
          mergePdfAppend blank base ins = some (base ++ ins))
      ∧ (getPageCount base + getPageCount ins = 0 →
          mergePdfAppend blank base ins = some [blank]) := by
  have hs : (min (max (afterIndex + 1) 0) (base.length : Int)).toNat = base.length := by
    simp only [getPageCount] at h
    have h1 : min (max (afterIndex + 1) 0) (base.length : Int) = (base.length : Int) := by
      apply min_eq_right
      apply le_max_of_le_left
      omega
    rw [h1]; simp
  refine ⟨?_, ?_, ?_⟩
  · rw [mergePdfInsertAfter_eq, mergePdfAppend_eq, hs]
    simp
  · intro hpages
    rw [mergePdfAppend_eq, save_of_ne_nil]
    intro hnil
    have hl := congrArg List.length hnil
    simp only [getPageCount] at hpages
    simp only [List.length_append, List.length_nil] at hl
    omega
  · intro hpages
    simp only [getPageCount] at hpages
    have hb : base = [] := List.length_eq_zero.mp (by omega)
    have hi : ins = [] := List.length_eq_zero.mp (by omega)
    subst hb; subst hi
    rw [mergePdfAppend_eq]
    simp [save_nil]

/-- Witness of C2: a base of two pages, `afterIndex = 1`. -/
theorem mergePdfInsertAfter_last_eq_append_witness :
    ((getPageCount [10, 20] : Int) - 1 ≤ 1)
      ∧ mergePdfInsertAfter 0 [10, 20] [30, 40] 1 = mergePdfAppend 0 [10, 20] [30, 40]
      ∧ mergePdfAppend 0 [10, 20] [30, 40] = some [10, 20, 30, 40] :=
  ⟨by decide,
    (mergePdfInsertAfter_last_eq_append 0 [10, 20] [30, 40] 1 (by decide)).1,
    ((mergePdfInsertAfter_last_eq_append 0 [10, 20] [30, 40] 1 (by decide)).2.1
      (by decide)).trans (by decide)⟩

/-! ## The pagination claim -/

/-- C3: for every item list of length `L` and every `rowsPerPage = R >= 1`, the page list
that `renderInvoiceItemsPdf` builds with `chunkArray(items, R)` is produced (the loop
ends), has `ceil(L / R)` pages, every page holds at most `R` items, and the pages
concatenated in order are the item list; an empty item list gives no page. -/
theorem renderInvoiceItemsPages_chunks {α : Type} (items : List α) (R : Nat) (hR : 1 ≤ R)
    (fuel : Nat) (hfuel : items.length < fuel) :
    ∃ pages, renderInvoiceItemsPages fuel (some items) (some R) = some pages
      ∧ pages.length = ⌈(items.length : ℚ) / (R : ℚ)⌉₊
      ∧ (∀ page ∈ pages, page.length ≤ R)
      ∧ pages.flatten = items
      ∧ (items = [] → pages = []) := by
  obtain ⟨pages, h1, h2, h3, h4⟩ := chunkArrayLoop_spec items R hR fuel 0 [] (by omega)
  refine ⟨pages, ?_, ?_, h3, ?_, ?_⟩
  · simpa [renderInvoiceItemsPages, chunkArray] using h1
  · rw [h4, ceil_div_eq _ _ hR]; simp
  · simpa using h2
  · intro hnil
    subst hnil
    have h0 : pages.length = 0 := by
      rw [h4]; simp [Nat.div_eq_of_lt (show R - 1 < R by omega)]
    exact List.length_eq_zero.mp h0

/-- Witness of C3: three items, two rows per page. -/
theorem renderInvoiceItemsPages_chunks_witness :
    (1 ≤ 2) ∧ ([7, 8, 9].length < 4)
      ∧ ∃ pages, renderInvoiceItemsPages 4 (some [7, 8, 9]) (some 2) = some pages
        ∧ pages.length = ⌈(([7, 8, 9] : List Nat).length : ℚ) / ((2 : Nat) : ℚ)⌉₊
        ∧ (∀ page ∈ pages, page.length ≤ 2)
        ∧ pages.flatten = [7, 8, 9]
        ∧ (([7, 8, 9] : List Nat) = [] → pages = []) :=
  ⟨by decide, by decide, renderInvoiceItemsPages_chunks [7, 8, 9] 2 (by decide) 4 (by decide)⟩

/-! ## The stamper claims -/

theorem getPage_clampedIndex (doc : List Page) (line : TextField) (h : 1 ≤ doc.length) :
    0 ≤ clampedIndex line doc.length ∧ clampedIndex line doc.length ≤ (doc.length : Int) - 1
      ∧ ∃ page, doc[(clampedIndex line doc.length).toNat]? = some page
        ∧ getPage doc (clampedIndex line doc.length) = some page := by
  have h0 : 0 ≤ clampedIndex line doc.length := by
    unfold clampedIndex
    exact le_min (le_max_left _ _) (by omega)
  have h1 : clampedIndex line doc.length ≤ (doc.length : Int) - 1 := by
    unfold clampedIndex
    exact min_le_right _ _
  have hlt : (clampedIndex line doc.length).toNat < doc.length := by omega
  refine ⟨h0, h1, doc[(clampedIndex line doc.length).toNat], List.getElem?_eq_getElem hlt, ?_⟩
  simp only [getPage, h0, h1, and_self, if_true]
  exact List.getElem?_eq_getElem hlt

theorem writeTextFields_length (font : Font) (n : Nat) (hn : 1 ≤ n) (lines : List TextField)
    (henc : ∀ line ∈ lines, fieldEncodable font line = true) :
    ∀ doc : List Page, doc.length = n →
      ∃ out, writeTextFields font n doc lines = some out ∧ out.length = n := by
  induction lines with
  | nil => intro doc hdoc; exact ⟨doc, rfl, hdoc⟩
  | cons line rest ih =>
    intro doc hdoc
    subst hdoc
    obtain ⟨_, _, page, _, hget⟩ := getPage_clampedIndex doc line hn
    obtain ⟨out, hout, hlen⟩ := ih (fun l hl => henc l (List.mem_cons_of_mem _ hl))
      (doc.set (clampedIndex line doc.length).toNat
        (Page.mk page.height (page.drawn ++ fieldDrawing font page.height line)))
      (by simp)
    refine ⟨out, ?_, hlen⟩
    simp only [writeTextFields, writeTextField, hget, henc line (List.mem_cons_self _ _),
      if_true, Option.some_bind]
    exact hout

/-- C10: for every text field and every target document with `pageCount >= 1`, the page
index `min(max(0, p), pageCount - 1)` that `writeTextOnPdf` resolves, `p` being the page
index of the field (0 when it has none), lies in `[0, pageCount - 1]`, so the page lookup
succeeds; when the font accepts the texts of the field the field is drawn on the page with
that index, and when it does not the call throws; for every list of fields the font
accepts the call writes a document with the same page count. -/
theorem writeTextOnPdf_page_index_in_range (font : Font) (doc : List Page) (line : TextField)
    (h : 1 ≤ getPageCount doc) :
    0 ≤ min (max 0 (line.page.getD 0)) ((getPageCount doc : Int) - 1)
      ∧ min (max 0 (line.page.getD 0)) ((getPageCount doc : Int) - 1)
          ≤ (getPageCount doc : Int) - 1
      ∧ (∃ page,
          getPage doc (min (max 0 (line.page.getD 0)) ((getPageCount doc : Int) - 1))
              = some page
            ∧ doc[(min (max 0 (line.page.getD 0)) ((getPageCount doc : Int) - 1)).toNat]?
              = some page
            ∧ (fieldEncodable font line = true →
                writeTextOnPdf font doc [line]
                  = some (doc.set
                      (min (max 0 (line.page.getD 0)) ((getPageCount doc : Int) - 1)).toNat
                      (Page.mk page.height
                        (page.drawn ++ fieldDrawing font page.height line))))
            ∧ (fieldEncodable font line = false → writeTextOnPdf font doc [line] = none))
      ∧ ∀ lines : List TextField, (∀ l ∈ lines, fieldEncodable font l = true) →
          ∃ out, writeTextOnPdf font doc lines = some out
            ∧ getPageCount out = getPageCount doc := by
  simp only [getPageCount] at h ⊢
  obtain ⟨h0, h1, page, hidx, hget⟩ := getPage_clampedIndex doc line h
  have hget2 : getPage doc (clampedIndex line doc.length) = some page := hget
  refine ⟨h0, h1, ⟨page, hget, hidx, ?_, ?_⟩, ?_⟩
  · intro henc
    simp only [writeTextOnPdf, writeTextFields, writeTextField, hget2, henc, if_true,
      Option.some_bind, Option.map_some']
    rw [save_of_ne_nil]
    · rfl
    · intro hnil
      have hl := congrArg List.length hnil
      rw [List.length_set, List.length_nil] at hl
      omega
  · intro henc
    simp [writeTextOnPdf, writeTextFields, writeTextField, hget2, henc]
  · intro lines henc
    obtain ⟨out, hout, hlen⟩ := writeTextFields_length font doc.length h lines henc doc rfl
    refine ⟨out, ?_, hlen⟩
    simp only [writeTextOnPdf, hout, Option.map_some']
    rw [save_of_ne_nil]
    intro hnil
    rw [hnil] at hlen
    simp at hlen
    omega

/-- Witness of C10: a field for page 5 of a document of two pages is drawn on the last
page. -/
theorem writeTextOnPdf_page_index_in_range_witness :
    (1 ≤ getPageCount [Page.mk 792 [], Page.mk 792 []])
      ∧ (0 : Int) ≤ min (max 0 ((some (5 : Int)).getD 0))
          ((getPageCount [Page.mk 792 [], Page.mk 792 []] : Int) - 1) :=
  ⟨by decide,
    (writeTextOnPdf_page_index_in_range squareFont
      [Page.mk 792 [], Page.mk 792 []] { page := some 5 } (by decide)).1⟩

theorem mapIdxFrom_map {α β γ : Type} (f : α → Nat → β) (g : β → γ) (h : α → γ)
    (hfg : ∀ a i, g (f a i) = h a) :
    ∀ (l : List α) (start : Nat), (mapIdxFrom f l start).map g = l.map h := by
  intro l
  induction l with
  | nil => intro start; rfl
  | cons a rest ih => intro start; simp [mapIdxFrom, hfg, ih]

theorem mapIdxFrom_length {α β : Type} (f : α → Nat → β) :
    ∀ (l : List α) (start : Nat), (mapIdxFrom f l start).length = l.length := by
  intro l
  induction l with
  | nil => intro start; rfl
  | cons a rest ih => intro start; simp [mapIdxFrom, ih]

theorem mapIdxFrom_mem {α β : Type} (f : α → Nat → β) :
    ∀ (l : List α) (start : Nat) (b : β), b ∈ mapIdxFrom f l start →
      ∃ a ∈ l, ∃ i, b = f a i := by
  intro l
  induction l with
  | nil => intro start b hb; simp [mapIdxFrom] at hb
  | cons a rest ih =>
    intro start b hb
    simp only [mapIdxFrom, List.mem_cons] at hb
    rcases hb with rfl | hb
    · exact ⟨a, List.mem_cons_self _ _, start, rfl⟩
    · obtain ⟨a1, ha1, i, hi⟩ := ih (start + 1) b hb
      exact ⟨a1, List.mem_cons_of_mem _ ha1, i, hi⟩

/-- What `fieldDrawing` draws for a field with a positive `maxWidth`: the wrapped lines. -/
theorem fieldDrawing_wrapped (font : Font) (height : ℚ) (line : TextField) (maxWidth : ℚ)
    (hmw : line.maxWidth = some maxWidth) (hpos : 0 < maxWidth) :
    fieldDrawing font height line
      = mapIdxFrom
          (fun ln idx => DrawText.mk ln (line.x.getD 40)
            (line.y.getD (height - 40) - (idx : ℚ) * line.lineHeight.getD 10)
            (line.size.getD 8))
          (wrapLines font (line.size.getD 8) maxWidth (line.text.getD "")) 0 := by
  simp [fieldDrawing, hmw, hpos]

theorem wrapStep_width_le (font : Font) (size maxWidth : ℚ) (st : String × List String)
    (w : String) (hw : font.widthOfTextAtSize w size ≤ maxWidth)
    (hcurr : st.1 = "" ∨ font.widthOfTextAtSize st.1 size ≤ maxWidth)
    (hwrapped : ∀ ln ∈ st.2, font.widthOfTextAtSize ln size ≤ maxWidth) :
    ((wrapStep font size maxWidth st w).1 = ""
        ∨ font.widthOfTextAtSize (wrapStep font size maxWidth st w).1 size ≤ maxWidth)
      ∧ ∀ ln ∈ (wrapStep font size maxWidth st w).2,
          font.widthOfTextAtSize ln size ≤ maxWidth := by
  by_cases hfit :
      font.widthOfTextAtSize (if st.1 ≠ "" then st.1 ++ " " ++ w else w) size ≤ maxWidth
  · have hstep : wrapStep font size maxWidth st w
        = ((if st.1 ≠ "" then st.1 ++ " " ++ w else w), st.2) := by
      simp only [wrapStep, hfit, if_true]
    rw [hstep]
    exact ⟨Or.inr hfit, hwrapped⟩
  · have hstep : wrapStep font size maxWidth st w
        = (w, if st.1 ≠ "" then st.2 ++ [st.1] else st.2) := by
      simp only [wrapStep, hfit, if_false]
    rw [hstep]
    refine ⟨Or.inr hw, ?_⟩
    by_cases hc : st.1 = ""
    · simpa [hc] using hwrapped
    · intro ln hln
      simp only [ne_eq, hc, not_false_eq_true, if_true, List.mem_append,
        List.mem_singleton] at hln
      rcases hln with hln | rfl
      · exact hwrapped ln hln
      · rcases hcurr with h | h
        · exact absurd h hc
        · exact h

theorem wrapFold_width_le (font : Font) (size maxWidth : ℚ) (words : List String) :
    ∀ st : String × List String,
      (∀ w ∈ words, font.widthOfTextAtSize w size ≤ maxWidth) →
      (st.1 = "" ∨ font.widthOfTextAtSize st.1 size ≤ maxWidth) →
      (∀ ln ∈ st.2, font.widthOfTextAtSize ln size ≤ maxWidth) →
      ∀ ln ∈ wrapFinish (words.foldl (wrapStep font size maxWidth) st),
        font.widthOfTextAtSize ln size ≤ maxWidth := by
  induction words with
  | nil =>
    intro st _ hcurr hwrapped ln hln
    simp only [List.foldl_nil, wrapFinish] at hln
    by_cases hc : st.1 = ""
    · simp only [hc, ne_eq, not_true_eq_false, if_false] at hln
      exact hwrapped ln hln
    · simp only [ne_eq, hc, not_false_eq_true, if_true, List.mem_append,
        List.mem_singleton] at hln
      rcases hln with hln | rfl
      · exact hwrapped ln hln
      · rcases hcurr with h | h
        · exact absurd h hc
        · exact h
  | cons w rest ih =>
    intro st hwords hcurr hwrapped
    have hstep := wrapStep_width_le font size maxWidth st w
      (hwords w (List.mem_cons_self _ _)) hcurr hwrapped
    simp only [List.foldl_cons]
    exact ih _ (fun v hv => hwords v (List.mem_cons_of_mem _ hv)) hstep.1 hstep.2

/-- C5: for every text field with `maxWidth > 0` whose whitespace-separated words each
measure at most `maxWidth` at the font size of the field, the lines the word wrap of
`writeTextOnPdf` draws are the wrapped lines, drawn at that font size, and every one of
them measures at most `maxWidth`. -/
theorem writeTextOnPdf_wrapped_line_width (font : Font) (height : ℚ) (line : TextField)
    (maxWidth : ℚ) (hmw : line.maxWidth = some maxWidth) (hpos : 0 < maxWidth)
    (hwords : ∀ w ∈ splitWhitespace (line.text.getD ""),
      font.widthOfTextAtSize w (line.size.getD 8) ≤ maxWidth) :
    (fieldDrawing font height line).map (fun d => d.text)
        = wrapLines font (line.size.getD 8) maxWidth (line.text.getD "")
      ∧ ∀ d ∈ fieldDrawing font height line,
          d.size = line.size.getD 8 ∧ font.widthOfTextAtSize d.text d.size ≤ maxWidth := by
  rw [fieldDrawing_wrapped font height line maxWidth hmw hpos]
  refine ⟨?_, ?_⟩
  · rw [mapIdxFrom_map _ _ (fun ln => ln) (fun _ _ => rfl)]
    simp
  · intro d hd
    obtain ⟨ln, hln, i, rfl⟩ := mapIdxFrom_mem _ _ _ _ hd
    refine ⟨rfl, ?_⟩
    exact wrapFold_width_le font (line.size.getD 8) maxWidth _ ("", []) hwords
      (Or.inl rfl) (by simp) ln hln

theorem sampleWrapField_words :
    splitWhitespace (sampleWrapField.text.getD "") = ["ab", "cd", "efg"] := by decide

/-- Witness of C5: the text `ab cd efg` at the width of six characters. -/
theorem writeTextOnPdf_wrapped_line_width_witness :
    (sampleWrapField.maxWidth = some 48) ∧ ((0 : ℚ) < 48)
      ∧ ((fieldDrawing squareFont 792 sampleWrapField).map (fun d => d.text)
          = wrapLines squareFont (sampleWrapField.size.getD 8) 48
              (sampleWrapField.text.getD "")
        ∧ ∀ d ∈ fieldDrawing squareFont 792 sampleWrapField,
            d.size = sampleWrapField.size.getD 8
              ∧ squareFont.widthOfTextAtSize d.text d.size ≤ 48) :=
  ⟨rfl, by norm_num,
    writeTextOnPdf_wrapped_line_width squareFont 792 sampleWrapField 48 rfl (by norm_num)
      (by
        intro w hw
        rw [sampleWrapField_words] at hw
        simp only [List.mem_cons, List.mem_singleton, List.not_mem_nil, or_false] at hw
        rcases hw with rfl | rfl | rfl <;>
          simp [squareFont, sampleWrapField] <;> simp [String.length] <;> norm_num)⟩

theorem wrapFinish_foldl_length (font : Font) (size maxWidth : ℚ) (ws : List String) :
    ∀ st : String × List String,
      (wrapFinish (ws.foldl (wrapStep font size maxWidth) st)).length
        = st.2.length + wrapCount font size maxWidth st.1 ws := by
  induction ws with
  | nil =>
    intro st
    by_cases hc : st.1 = "" <;> simp [wrapFinish, wrapCount, hc]
  | cons w rest ih =>
    intro st
    rw [List.foldl_cons, ih]
    by_cases hfit :
        font.widthOfTextAtSize (if st.1 ≠ "" then st.1 ++ " " ++ w else w) size ≤ maxWidth
    · have hstep : wrapStep font size maxWidth st w
          = ((if st.1 ≠ "" then st.1 ++ " " ++ w else w), st.2) := by
        simp only [wrapStep, hfit, if_true]
      rw [hstep]
      simp only [wrapCount, hfit, if_true]
    · have hstep : wrapStep font size maxWidth st w
          = (w, if st.1 ≠ "" then st.2 ++ [st.1] else st.2) := by
        simp only [wrapStep, hfit, if_false]
      rw [hstep]
      simp only [wrapCount, hfit, if_false]
      by_cases hc : st.1 = ""
      · simp [hc]
      · simp [hc]; omega

theorem textWidth_nonneg (adv : Char → ℚ) (hadv : ∀ c, 0 ≤ adv c) (s : String) :
    0 ≤ textWidth adv s := by
  unfold textWidth
  apply List.sum_nonneg
  intro x hx
  obtain ⟨c, _, rfl⟩ := List.mem_map.mp hx
  exact hadv c

theorem textWidth_append (adv : Char → ℚ) (s t : String) :
    textWidth adv (s ++ t) = textWidth adv s + textWidth adv t := by
  simp [textWidth]

theorem textWidth_space (adv : Char → ℚ) : textWidth adv " " = adv ' ' := by
  simp [textWidth]

theorem textWidth_empty (adv : Char → ℚ) : textWidth adv "" = 0 := by
  simp [textWidth]

theorem wrapLoad_nonneg (adv : Char → ℚ) (hadv : ∀ c, 0 ≤ adv c) (s : String) :
    0 ≤ wrapLoad adv s := by
  unfold wrapLoad
  split
  · have := textWidth_nonneg adv hadv s
    have := hadv ' '
    linarith
  · exact le_refl _

theorem append_ne_empty_left (s t : String) (hs : s ≠ "") : s ++ t ≠ "" := by
  intro h
  apply hs
  have hd := String.ext_iff.mp h
  apply String.ext_iff.mpr
  simp only [String.data_append] at hd
  exact (List.append_eq_nil.mp hd).1

/-- The candidate line of the loop: its width, when it is not empty, and its load. -/
theorem candidate_facts (adv : Char → ℚ) (c w : String) :
    textWidth adv (if c ≠ "" then c ++ " " ++ w else w) = wrapLoad adv c + textWidth adv w
      ∧ ((if c ≠ "" then c ++ " " ++ w else w) ≠ "" ↔ (c ≠ "" ∨ w ≠ ""))
      ∧ wrapLoad adv (if c ≠ "" then c ++ " " ++ w else w)
          = if c ≠ "" ∨ w ≠ "" then wrapLoad adv c + textWidth adv w + adv ' ' else 0 := by
  by_cases hc : c = ""
  · subst hc
    by_cases hw : w = ""
    · subst hw
      simp [wrapLoad, textWidth]
    · simp [wrapLoad, hw]
  · have hne : c ++ " " ++ w ≠ "" :=
      append_ne_empty_left _ _ (append_ne_empty_left _ _ hc)
    simp only [ne_eq, hc, not_false_eq_true, if_true, true_or, iff_true]
    refine ⟨?_, hne, ?_⟩
    · simp [wrapLoad, hc, textWidth_append, textWidth_space]
    · simp [wrapLoad, hc, hne, textWidth_append, textWidth_space]

theorem wrapCount_cons (font : Font) (adv : Char → ℚ) (size maxWidth : ℚ)
    (hadd : ∀ s : String, font.widthOfTextAtSize s size = textWidth adv s)
    (c w : String) (ws : List String) :
    wrapCount font size maxWidth c (w :: ws)
      = if wrapLoad adv c + textWidth adv w ≤ maxWidth then
          wrapCount font size maxWidth (if c ≠ "" then c ++ " " ++ w else w) ws
        else (if c ≠ "" then 1 else 0) + wrapCount font size maxWidth w ws := by
  rw [wrapCount, hadd, (candidate_facts adv c w).1]

theorem wrapCount_nil (font : Font) (size maxWidth : ℚ) (c : String) :
    wrapCount font size maxWidth c [] = if c ≠ "" then 1 else 0 := by
  rw [wrapCount]

theorem wrapLoad_word_le_candidate (adv : Char → ℚ) (hadv : ∀ c, 0 ≤ adv c) (d w : String) :
    wrapLoad adv w ≤ wrapLoad adv (if d ≠ "" then d ++ " " ++ w else w) := by
  rw [(candidate_facts adv d w).2.2]
  by_cases hw : w = ""
  · subst hw
    have h0 : wrapLoad adv "" = 0 := by simp [wrapLoad]
    rw [h0]
    split
    · have := wrapLoad_nonneg adv hadv d
      have := hadv ' '
      simp only [textWidth_empty]
      linarith
    · exact le_refl _
  · have hor : d ≠ "" ∨ w ≠ "" := Or.inr hw
    rw [if_pos hor]
    have := wrapLoad_nonneg adv hadv d
    have hload : wrapLoad adv w = textWidth adv w + adv ' ' := by simp [wrapLoad, hw]
    rw [hload]
    linarith

theorem wrapCount_mono_and_bound (font : Font) (adv : Char → ℚ) (size maxWidth : ℚ)
    (hadv : ∀ c, 0 ≤ adv c)
    (hadd : ∀ s : String, font.widthOfTextAtSize s size = textWidth adv s)
    (ws : List String) :
    (∀ c1 c2 : String, wrapLoad adv c1 ≤ wrapLoad adv c2 → (c1 ≠ "" → c2 ≠ "") →
        wrapCount font size maxWidth c1 ws ≤ wrapCount font size maxWidth c2 ws)
      ∧ (∀ c d : String,
        wrapCount font size maxWidth c ws ≤ 1 + wrapCount font size maxWidth d ws) := by
  induction ws with
  | nil =>
    refine ⟨?_, ?_⟩
    · intro c1 c2 _ hne
      simp only [wrapCount_nil]
      by_cases h1 : c1 = ""
      · simp [h1]
      · simp [h1, hne h1]
    · intro c d
      simp only [wrapCount_nil]
      split <;> split <;> omega
  | cons w ws ih =>
    obtain ⟨ihA, ihB⟩ := ih
    refine ⟨?_, ?_⟩
    · intro c1 c2 hl hne
      rw [wrapCount_cons font adv size maxWidth hadd c1, wrapCount_cons font adv size maxWidth hadd c2]
      by_cases h1 : wrapLoad adv c1 + textWidth adv w ≤ maxWidth
      · by_cases h2 : wrapLoad adv c2 + textWidth adv w ≤ maxWidth
        · rw [if_pos h1, if_pos h2]
          apply ihA
          · rw [(candidate_facts adv c1 w).2.2, (candidate_facts adv c2 w).2.2]
            by_cases ho : c1 ≠ "" ∨ w ≠ ""
            · have ho2 : c2 ≠ "" ∨ w ≠ "" := ho.imp hne id
              rw [if_pos ho, if_pos ho2]
              linarith
            · rw [if_neg ho]
              split
              · have := wrapLoad_nonneg adv hadv c2
                have := textWidth_nonneg adv hadv w
                have := hadv ' '
                linarith
              · exact le_refl _
          · intro hcand
            exact (candidate_facts adv c2 w).2.1.mpr
              (((candidate_facts adv c1 w).2.1.mp hcand).imp hne id)
        · rw [if_pos h1, if_neg h2]
          have hc2 : c2 ≠ "" := by
            intro hc2
            apply h2
            have h0 : wrapLoad adv c2 = 0 := by simp [wrapLoad, hc2]
            have := wrapLoad_nonneg adv hadv c1
            linarith
          rw [if_pos hc2]
          exact ihB _ _
      · have h2 : ¬ wrapLoad adv c2 + textWidth adv w ≤ maxWidth := by
          intro h2
          apply h1
          linarith
        rw [if_neg h1, if_neg h2]
        by_cases hc1 : c1 = ""
        · simp [hc1]
        · simp [hc1, hne hc1]
    · intro c d
      rw [wrapCount_cons font adv size maxWidth hadd c, wrapCount_cons font adv size maxWidth hadd d]
      by_cases h1 : wrapLoad adv c + textWidth adv w ≤ maxWidth
      · by_cases h2 : wrapLoad adv d + textWidth adv w ≤ maxWidth
        · rw [if_pos h1, if_pos h2]
          exact ihB _ _
        · rw [if_pos h1, if_neg h2]
          have := ihB (if c ≠ "" then c ++ " " ++ w else w) w
          omega
      · by_cases h2 : wrapLoad adv d + textWidth adv w ≤ maxWidth
        · rw [if_neg h1, if_pos h2]
          have hmono := ihA w (if d ≠ "" then d ++ " " ++ w else w)
            (wrapLoad_word_le_candidate adv hadv d w)
            (fun hw => (candidate_facts adv d w).2.1.mpr (Or.inr hw))
          split <;> omega
        · rw [if_neg h1, if_neg h2]
          split <;> split <;> omega

theorem textWidth_intercalate_go (adv : Char → ℚ) (rest : List String) :
    ∀ acc : String,
      textWidth adv (String.intercalate.go acc " " rest)
        = textWidth adv acc + (rest.map fun a => adv ' ' + textWidth adv a).sum := by
  induction rest with
  | nil => intro acc; simp [String.intercalate.go]
  | cons a rest ih =>
    intro acc
    rw [String.intercalate.go, ih, textWidth_append, textWidth_append, textWidth_space]
    simp only [List.map_cons, List.sum_cons]
    ring

theorem textWidth_intercalate_cons (adv : Char → ℚ) (w : String) (rest : List String) :
    textWidth adv (" ".intercalate (w :: rest))
      = textWidth adv w + (rest.map fun a => adv ' ' + textWidth adv a).sum := by
  rw [String.intercalate, textWidth_intercalate_go]

theorem tail_width_nonneg (adv : Char → ℚ) (hadv : ∀ c, 0 ≤ adv c) (rest : List String) :
    0 ≤ (rest.map fun a => adv ' ' + textWidth adv a).sum := by
  apply List.sum_nonneg
  intro x hx
  obtain ⟨a, _, rfl⟩ := List.mem_map.mp hx
  have := hadv ' '
  have := textWidth_nonneg adv hadv a
  linarith

theorem wrapLoad_candidate_le (adv : Char → ℚ) (hadv : ∀ c, 0 ≤ adv c) (c w : String) :
    wrapLoad adv (if c ≠ "" then c ++ " " ++ w else w)
      ≤ wrapLoad adv c + textWidth adv w + adv ' ' := by
  rw [(candidate_facts adv c w).2.2]
  split
  · exact le_refl _
  · have := wrapLoad_nonneg adv hadv c
    have := textWidth_nonneg adv hadv w
    have := hadv ' '
    linarith

/-- A run of words that fits on the line after `curr` is read without a break, so it
costs at most one line more than the words after it cost from an empty line. -/
theorem wrapCount_run (font : Font) (adv : Char → ℚ) (size maxWidth : ℚ)
    (hadv : ∀ c, 0 ≤ adv c)
    (hadd : ∀ s : String, font.widthOfTextAtSize s size = textWidth adv s)
    (rest : List String) (run : List String) :
    ∀ c : String,
      (∀ w tail, run = w :: tail →
        wrapLoad adv c + textWidth adv w
          + (tail.map fun a => adv ' ' + textWidth adv a).sum ≤ maxWidth) →
      wrapCount font size maxWidth c (run ++ rest)
        ≤ 1 + wrapCount font size maxWidth "" rest := by
  induction run with
  | nil =>
    intro c _
    exact (wrapCount_mono_and_bound font adv size maxWidth hadv hadd rest).2 c ""
  | cons w tail ih =>
    intro c hfit
    have hrun := hfit w tail rfl
    have htail := tail_width_nonneg adv hadv tail
    have hw : wrapLoad adv c + textWidth adv w ≤ maxWidth := by linarith
    rw [List.cons_append, wrapCount_cons font adv size maxWidth hadd, if_pos hw]
    apply ih
    intro w2 tail2 htl
    subst htl
    have hcand := wrapLoad_candidate_le adv hadv c w
    simp only [List.map_cons, List.sum_cons] at hrun
    linarith

theorem wrapCount_le_runs (font : Font) (adv : Char → ℚ) (size maxWidth : ℚ)
    (hadv : ∀ c, 0 ≤ adv c)
    (hadd : ∀ s : String, font.widthOfTextAtSize s size = textWidth adv s)
    (runs : List (List String))
    (hfit : ∀ run ∈ runs, font.widthOfTextAtSize (" ".intercalate run) size ≤ maxWidth) :
    wrapCount font size maxWidth "" runs.flatten ≤ runs.length := by
  induction runs with
  | nil => simp [wrapCount]
  | cons run runs ih =>
    have h1 := wrapCount_run font adv size maxWidth hadv hadd runs.flatten run ""
      (by
        intro w tail hrun
        have h := hfit run (List.mem_cons_self _ _)
        rw [hadd, hrun, textWidth_intercalate_cons] at h
        have h0 : wrapLoad adv "" = 0 := by simp [wrapLoad]
        rw [h0]
        linarith)
    have h2 := ih (fun r hr => hfit r (List.mem_cons_of_mem _ hr))
    rw [List.flatten_cons, List.length_cons]
    omega

/-- C4: for every text field with `maxWidth > 0` whose whitespace-separated words each
measure at most `maxWidth` at the font size of the field, the measured width being the
sum of non-negative advances of the characters, the number of lines the word wrap of
`writeTextOnPdf` draws is minimal: every split of the same word sequence into consecutive
runs, each of whose space-joined width is at most `maxWidth`, has at least as many runs. -/
theorem writeTextOnPdf_wrap_line_count_minimal (font : Font) (adv : Char → ℚ) (height : ℚ)
    (line : TextField) (maxWidth : ℚ)
    (hmw : line.maxWidth = some maxWidth) (hpos : 0 < maxWidth)
    (hadv : ∀ c, 0 ≤ adv c)
    (hadd : ∀ s : String,
      font.widthOfTextAtSize s (line.size.getD 8) = (s.data.map adv).sum)
    (_hwords : ∀ w ∈ splitWhitespace (line.text.getD ""),
      font.widthOfTextAtSize w (line.size.getD 8) ≤ maxWidth)
    (runs : List (List String))
    (hruns : runs.flatten = splitWhitespace (line.text.getD ""))
    (hfit : ∀ run ∈ runs,
      font.widthOfTextAtSize (" ".intercalate run) (line.size.getD 8) ≤ maxWidth) :
    (fieldDrawing font height line).length ≤ runs.length := by
  rw [fieldDrawing_wrapped font height line maxWidth hmw hpos, mapIdxFrom_length]
  unfold wrapLines
  rw [wrapFinish_foldl_length, ← hruns]
  simpa using wrapCount_le_runs font adv (line.size.getD 8) maxWidth hadv hadd runs hfit

/-- Witness of C4: the text `ab cd efg` at the width of six characters, against the
split into `ab cd` and `efg`. -/
theorem writeTextOnPdf_wrap_line_count_minimal_witness :
    (sampleWrapField.maxWidth = some 48) ∧ ((0 : ℚ) < 48)
      ∧ (fieldDrawing squareFont 792 sampleWrapField).length
          ≤ [["ab", "cd"], ["efg"]].length :=
  ⟨rfl, by norm_num,
    writeTextOnPdf_wrap_line_count_minimal squareFont (fun _ => 8) 792 sampleWrapField 48
      rfl (by norm_num) (fun _ => by norm_num) (fun _ => rfl)
      (by
        intro w hw
        rw [sampleWrapField_words] at hw
        simp only [List.mem_cons, List.mem_singleton, List.not_mem_nil, or_false] at hw
        rcases hw with rfl | rfl | rfl <;>
          simp [squareFont, sampleWrapField] <;> simp [String.length] <;> norm_num)
      [["ab", "cd"], ["efg"]]
      (by rw [sampleWrapField_words]; rfl)
      (by
        intro run hrun
        simp only [List.mem_cons, List.mem_singleton, List.not_mem_nil, or_false] at hrun
        rcases hrun with rfl | rfl <;>
          simp [squareFont, sampleWrapField, String.intercalate, String.intercalate.go] <;>
          simp [String.length] <;> norm_num)⟩


/-! ## The mapper claims -/

theorem roundDouble_of_natAbs_le (n : Int) (h : n.natAbs ≤ 2 ^ 53) :
    roundDouble n = JsNumber.finite n := by
  simp only [roundDouble]
  rw [if_pos h]

theorem int_toString_of_neg (n : Int) (h : n < 0) : "-" ++ toString n.natAbs = toString n := by
  cases n with
  | ofNat m => exact absurd h (by simp)
  | negSucc m => rfl

theorem int_toString_of_nonneg (n : Int) (h : ¬ n < 0) : toString n.natAbs = toString n := by
  cases n with
  | ofNat m => rfl
  | negSucc m => exact absurd (Int.negSucc_lt_zero m) h

theorem jsNumberText_of_natAbs_le (n : Int) (h : n.natAbs ≤ 2 ^ 53) :
    jsNumberText (JsNumber.finite n) = toString n := by
  simp only [jsNumberText, naturalText]
  rw [if_pos h]
  by_cases hn : n < 0
  · rw [if_pos hn]; exact int_toString_of_neg n hn
  · rw [if_neg hn]; exact int_toString_of_nonneg n hn

theorem jsSub_exact (a b : Int) (ha : a.natAbs ≤ 2 ^ 53) (hb : b.natAbs ≤ 2 ^ 53)
    (h : (a - b).natAbs ≤ 2 ^ 53) :
    jsSub (roundDouble a) (roundDouble b) = JsNumber.finite (a - b) := by
  rw [roundDouble_of_natAbs_le a ha, roundDouble_of_natAbs_le b hb]
  exact roundDouble_of_natAbs_le (a - b) h

theorem jsAdd_exact (a b : Int) (hb : b.natAbs ≤ 2 ^ 53) (h : (a + b).natAbs ≤ 2 ^ 53) :
    jsAdd (JsNumber.finite a) (roundDouble b) = JsNumber.finite (a + b) := by
  rw [roundDouble_of_natAbs_le b hb]
  exact roundDouble_of_natAbs_le (a + b) h

/-- C6, counterexample: the order with subtotal `2 ^ 53 = 9007199254740992`, freight 1 and
no explicit total. The sum in doubles, `9007199254740992 + 1`, is a tie between two doubles
and goes to the even one, so the grand-total field reads `9007199254740992`, which is not
the decimal text `9007199254740993` of subtotal - discount + freight + insurance + others. -/
theorem buildCustomsLines_invoice_default_total_counterexample :
    largeSubtotalOrder.total_invoice_amount = none ∧ largeSubtotalOrder.total = none
      ∧ ((buildCustomsLinesFromShipment (MapperEnv.mk "11/05/2026" 1762300800000 7)
            { order := some largeSubtotalOrder } "INVOICES")[12]?).bind (fun field => field.text)
          = some "9007199254740992"
      ∧ toString ((9007199254740992 : Int) - 0 + 1 + 0 + 0) = "9007199254740993"
      ∧ ((buildCustomsLinesFromShipment (MapperEnv.mk "11/05/2026" 1762300800000 7)
            { order := some largeSubtotalOrder } "INVOICES")[12]?).bind (fun field => field.text)
          ≠ some (toString (invoiceSubtotal largeSubtotalOrder - discountRebate largeSubtotalOrder
              + freight largeSubtotalOrder + insurance largeSubtotalOrder
              + others largeSubtotalOrder)) := by
  refine ⟨rfl, rfl, ?_, ?_, ?_⟩ <;> decide

/-- C6, amended: for every order without an explicit total (neither `total_invoice_amount`
nor `total`) in which the five amounts, read as the mapper reads them
(`invoice_subtotal || subtotal || 0`, `discount_rebate || discount || 0`, `freight || 0`,
`insurance || 0`, `others || 0`), and the four sums that the code forms one after the other
(subtotal - discount, then + freight, then + insurance, then + others) all have an absolute
value of at most `2 ^ 53`, the grand-total field that
`buildCustomsLinesFromShipment(shipment, 'INVOICES')` returns, the field at (448, 608) on
page 1, carries the decimal text of `subtotal - discount + freight + insurance + others`;
for subtotal 100, discount 10, freight 5, insurance 2 and others 1 the text is `98`. -/
theorem buildCustomsLines_invoice_default_total (env : MapperEnv) (shipment : ShipmentData)
    (order : Order) (horder : shipment.order = some order)
    (h1 : order.total_invoice_amount = none) (h2 : order.total = none)
    (hsub : (invoiceSubtotal order).natAbs ≤ 2 ^ 53)
    (hdis : (discountRebate order).natAbs ≤ 2 ^ 53)
    (hfre : (freight order).natAbs ≤ 2 ^ 53)
    (hins : (insurance order).natAbs ≤ 2 ^ 53)
    (hoth : (others order).natAbs ≤ 2 ^ 53)
    (hsum1 : (invoiceSubtotal order - discountRebate order).natAbs ≤ 2 ^ 53)
    (hsum2 : (invoiceSubtotal order - discountRebate order + freight order).natAbs ≤ 2 ^ 53)
    (hsum3 : (invoiceSubtotal order - discountRebate order + freight order
        + insurance order).natAbs ≤ 2 ^ 53)
    (hsum4 : (invoiceSubtotal order - discountRebate order + freight order
        + insurance order + others order).natAbs ≤ 2 ^ 53) :
    (buildCustomsLinesFromShipment env shipment "INVOICES")[12]?
        = some (fieldOn
            (toString (invoiceSubtotal order - discountRebate order + freight order
              + insurance order + others order)) 448 608 1)
      ∧ (∀ s d f i o : Int,
          order.invoice_subtotal = none → order.subtotal = some s →
          order.discount_rebate = none → order.discount = some d →
          order.freight = some f → order.insurance = some i → order.others = some o →
          ((buildCustomsLinesFromShipment env shipment "INVOICES")[12]?).bind
              (fun field => field.text)
            = some (toString (s - d + f + i + o)))
      ∧ (order.invoice_subtotal = none → order.subtotal = some 100 →
          order.discount_rebate = none → order.discount = some 10 →
          order.freight = some 5 → order.insurance = some 2 → order.others = some 1 →
          ((buildCustomsLinesFromShipment env shipment "INVOICES")[12]?).bind
              (fun field => field.text)
            = some "98") := by
  have hnum : ∀ n : Int, numOr (some n) 0 = n := by
    intro n
    by_cases hn : n = 0 <;> simp [numOr, hn]
  have htotal : totalInvoiceAmount order
      = JsNumber.finite (invoiceSubtotal order - discountRebate order + freight order
          + insurance order + others order) := by
    simp only [totalInvoiceAmount, h1, h2, numOr, ne_eq, not_true_eq_false, if_false]
    rw [jsSub_exact _ _ hsub hdis hsum1, jsAdd_exact _ _ hfre hsum2,
      jsAdd_exact _ _ hins hsum3, jsAdd_exact _ _ hoth hsum4]
  have hfield : (buildCustomsLinesFromShipment env shipment "INVOICES")[12]?
      = some (fieldOn
          (toString (invoiceSubtotal order - discountRebate order + freight order
            + insurance order + others order)) 448 608 1) := by
    have hget : (buildCustomsLinesFromShipment env shipment "INVOICES")[12]?
        = some (fieldOn (jsNumberText (totalInvoiceAmount order)) 448 608 1) := by
      simp [buildCustomsLinesFromShipment, horder]
    rw [hget, htotal, jsNumberText_of_natAbs_le _ hsum4]
  have hgen : ∀ s d f i o : Int,
      order.invoice_subtotal = none → order.subtotal = some s →
      order.discount_rebate = none → order.discount = some d →
      order.freight = some f → order.insurance = some i → order.others = some o →
      ((buildCustomsLinesFromShipment env shipment "INVOICES")[12]?).bind
          (fun field => field.text)
        = some (toString (s - d + f + i + o)) := by
    intro s d f i o hs1 hs2 hd1 hd2 hf hi ho
    rw [hfield]
    simp only [Option.some_bind, fieldOn, invoiceSubtotal, discountRebate, freight,
      insurance, others, hs1, hs2, hd1, hd2, hf, hi, ho, hnum]
    simp [numOr]
  refine ⟨hfield, hgen, ?_⟩
  intro hs1 hs2 hd1 hd2 hf hi ho
  rw [hgen 100 10 5 2 1 hs1 hs2 hd1 hd2 hf hi ho]
  decide

/-- Witness of C6: the example of the specification. -/
theorem buildCustomsLines_invoice_default_total_witness :
    (sampleOrder.total_invoice_amount = none) ∧ (sampleOrder.total = none)
      ∧ (invoiceSubtotal sampleOrder - discountRebate sampleOrder + freight sampleOrder
          + insurance sampleOrder + others sampleOrder).natAbs ≤ 2 ^ 53
      ∧ ((buildCustomsLinesFromShipment (MapperEnv.mk "11/05/2026" 1762300800000 7)
            { order := some sampleOrder } "INVOICES")[12]?).bind (fun field => field.text)
          = some "98" :=
  ⟨rfl, rfl, by decide,
    (buildCustomsLines_invoice_default_total (MapperEnv.mk "11/05/2026" 1762300800000 7)
      { order := some sampleOrder } sampleOrder rfl rfl rfl
      (by decide) (by decide) (by decide) (by decide) (by decide)
      (by decide) (by decide) (by decide) (by decide)).2.2
      rfl rfl rfl rfl rfl rfl rfl⟩

/-! ## The orchestrator claims -/

theorem processBlank_missing (env : PipelineEnv) (shipmentNumber : String)
    (shipmentData : ShipmentData) (st : PipelineState) (blank : Blank)
    (h : env.existsSync (env.pathJoin env.blanksDir blank.file) = false) :
    processBlank env shipmentNumber shipmentData st blank
      = (st, some ("Missing template: " ++ env.pathJoin env.blanksDir blank.file)) := by
  simp [processBlank, h]

theorem runStep_ok (env : PipelineEnv) (hok : ∀ a, env.failure a = none)
    (st : PipelineState) (a : Action) : runStep env st a = (st.log a, none) := by
  simp [runStep, hok a]

theorem runStep_thrown (env : PipelineEnv) (st : PipelineState) (a : Action) (m : String)
    (h : (runStep env st a).2 = some m) : env.failure a = some m := by
  unfold runStep at h
  cases hf : env.failure a with
  | none => rw [hf] at h; simp at h
  | some m2 => rw [hf] at h; simpa using h

theorem thenStep_thrown (r : PipelineState × Option String)
    (next : PipelineState → PipelineState × Option String) (m : String)
    (h : (thenStep r next).2 = some m) :
    r.2 = some m ∨ ∃ st, (next st).2 = some m := by
  obtain ⟨st, e⟩ := r
  cases e with
  | none => exact Or.inr ⟨st, h⟩
  | some m2 => exact Or.inl h

theorem invoiceItemsFlow_ok (env : PipelineEnv) (hok : ∀ a, env.failure a = none)
    (shipmentNumber : String) (shipmentData : ShipmentData) (file outputPath : String)
    (st : PipelineState) :
    invoiceItemsFlow env shipmentNumber shipmentData file outputPath st
      = (((st.log (Action.renderInvoiceItemsPdf (shipmentData.items.getD []) shipmentNumber
              28 (env.pathJoin env.outputDir ("INVOICE_ITEMS_" ++ shipmentNumber ++ ".pdf")))).log
            (Action.mergePdfInsertAfter outputPath
              (env.pathJoin env.outputDir ("INVOICE_ITEMS_" ++ shipmentNumber ++ ".pdf")) 0
              (env.pathJoin env.outputDir
                (pathParseName file ++ "_" ++ shipmentNumber ++ "_MERGED.pdf")))).log
          (Action.moveSync
            (env.pathJoin env.outputDir
              (pathParseName file ++ "_" ++ shipmentNumber ++ "_MERGED.pdf")) outputPath),
        none) := by
  simp [invoiceItemsFlow, runStep_ok env hok, thenStep]

theorem invoiceItemsFlow_thrown (env : PipelineEnv) (shipmentNumber : String)
    (shipmentData : ShipmentData) (file outputPath : String) (st : PipelineState)
    (m : String)
    (h : (invoiceItemsFlow env shipmentNumber shipmentData file outputPath st).2 = some m) :
    ∃ a, env.failure a = some m := by
  unfold invoiceItemsFlow at h
  rcases thenStep_thrown _ _ m h with h1 | ⟨st1, h1⟩
  · exact ⟨_, runStep_thrown env _ _ m h1⟩
  · rcases thenStep_thrown _ _ m h1 with h2 | ⟨st2, h2⟩
    · exact ⟨_, runStep_thrown env _ _ m h2⟩
    · exact ⟨_, runStep_thrown env _ _ m h2⟩

/-- What the body of the loop throws: the missing template error of its blank, or the error
of one of its steps. -/
theorem processBlank_thrown (env : PipelineEnv) (shipmentNumber : String)
    (shipmentData : ShipmentData) (st : PipelineState) (blank : Blank) (m : String)
    (h : (processBlank env shipmentNumber shipmentData st blank).2 = some m) :
    (env.existsSync (env.pathJoin env.blanksDir blank.file) = false
        ∧ m = "Missing template: " ++ env.pathJoin env.blanksDir blank.file)
      ∨ ∃ a, env.failure a = some m := by
  by_cases hex : env.existsSync (env.pathJoin env.blanksDir blank.file) = false
  · rw [processBlank_missing env shipmentNumber shipmentData st blank hex] at h
    exact Or.inl ⟨hex, (Option.some.inj h).symm⟩
  · right
    have hex1 : env.existsSync (env.pathJoin env.blanksDir blank.file) = true := by
      simpa using hex
    unfold processBlank at h
    simp only [hex1, Bool.not_true, Bool.false_eq_true, if_false] at h
    rcases thenStep_thrown _ _ m h with h1 | ⟨st1, h1⟩
    · split at h1
      · exact ⟨_, runStep_thrown env _ _ m h1⟩
      · simp at h1
    · rcases thenStep_thrown _ _ m h1 with h2 | ⟨st2, h2⟩
      · split at h2
        · exact invoiceItemsFlow_thrown env _ _ _ _ _ m h2
        · simp at h2
      · split at h2 <;> simp at h2

theorem processBlank_present (env : PipelineEnv) (hok : ∀ a, env.failure a = none)
    (shipmentNumber : String)
    (shipmentData : ShipmentData) (st : PipelineState) (blank : Blank)
    (_h : env.existsSync (env.pathJoin env.blanksDir blank.file) = true) :
    (processBlank env shipmentNumber shipmentData st blank).2 = none := by
  cases hres : (processBlank env shipmentNumber shipmentData st blank).2 with
  | none => rfl
  | some m =>
    rcases processBlank_thrown env shipmentNumber shipmentData st blank m hres with
      ⟨hex, _⟩ | ⟨a, ha⟩
    · rw [_h] at hex; cases hex
    · rw [hok a] at ha; cases ha

/-- The loop over the blanks throws when a blank is missing: the missing template error of
a missing blank, or the error of a step that threw before. -/
theorem processBlanks_missing (env : PipelineEnv) (shipmentNumber : String)
    (shipmentData : ShipmentData) (bs : List Blank) :
    ∀ st : PipelineState,
      (∃ blank ∈ bs, env.existsSync (env.pathJoin env.blanksDir blank.file) = false) →
      ∃ m, (processBlanks env shipmentNumber shipmentData bs st).2 = some m
        ∧ ((∃ blank ∈ bs, env.existsSync (env.pathJoin env.blanksDir blank.file) = false
              ∧ m = "Missing template: " ++ env.pathJoin env.blanksDir blank.file)
            ∨ ∃ a, env.failure a = some m) := by
  induction bs with
  | nil => intro st h; obtain ⟨b, hb, _⟩ := h; simp at hb
  | cons b rest ih =>
    intro st h
    cases hres : processBlank env shipmentNumber shipmentData st b with
    | mk st1 e =>
      cases e with
      | some m =>
        refine ⟨m, by simp [processBlanks, hres], ?_⟩
        have hthrown : (processBlank env shipmentNumber shipmentData st b).2 = some m := by
          rw [hres]
        rcases processBlank_thrown env shipmentNumber shipmentData st b m hthrown with
          ⟨hex, hm⟩ | hstep
        · exact Or.inl ⟨b, List.mem_cons_self _ _, hex, hm⟩
        · exact Or.inr hstep
      | none =>
        have hb : env.existsSync (env.pathJoin env.blanksDir b.file) = true := by
          by_contra hneg
          have hfalse : env.existsSync (env.pathJoin env.blanksDir b.file) = false := by
            simpa using hneg
          rw [processBlank_missing env shipmentNumber shipmentData st b hfalse] at hres
          cases hres
        have hrest : ∃ blank ∈ rest,
            env.existsSync (env.pathJoin env.blanksDir blank.file) = false := by
          obtain ⟨blank, hmem, hmiss⟩ := h
          rcases List.mem_cons.mp hmem with rfl | hmem
          · rw [hb] at hmiss; cases hmiss
          · exact ⟨blank, hmem, hmiss⟩
        obtain ⟨m, hm, hor⟩ := ih st1 hrest
        refine ⟨m, by simp [processBlanks, hres, hm], ?_⟩
        rcases hor with ⟨blank, hmem, hmiss, hmsg⟩ | hstep
        · exact Or.inl ⟨blank, List.mem_cons_of_mem _ hmem, hmiss, hmsg⟩
        · exact Or.inr hstep

set_option maxRecDepth 100000 in
/-- C9, as stated, fails when a step of an earlier form throws: for the shipment number
`a/b` with the TSCA blank missing, writing the stamped invoice throws first, and the error
message of the response is that of the write; it contains the path of no blank. -/
theorem generateAndUploadDocs_missing_blank_counterexample :
    invoiceWriteFailsEnv.existsSync
        (invoiceWriteFailsEnv.pathJoin invoiceWriteFailsEnv.blanksDir "TSCA_BLANK.pdf") = false
      ∧ (generateAndUploadDocs invoiceWriteFailsEnv "a/b" oneItemShipment).1
          = Response.error 500
              "ENOENT: no such file or directory, open /srv/generated_docs/INVOICES_BLANK_a/b.pdf"
      ∧ ∀ file ∈ ["INVOICES_BLANK.pdf", "232_FORM_BLANK.pdf", "TSCA_BLANK.pdf"],
          ¬ ((invoiceWriteFailsEnv.pathJoin invoiceWriteFailsEnv.blanksDir file).data
              <:+: ("ENOENT: no such file or directory, open "
                ++ "/srv/generated_docs/INVOICES_BLANK_a/b.pdf").data) := by
  refine ⟨by decide, by decide, by decide⟩

/-- C9, amended: for every request, if the blank template file of at least one of the three
form kinds does not exist, the response is the error response (status 500) and not a
`shipmentNumber`/`uploadResults` result; its error message is `Missing template: ` followed
by the full path of a missing blank file, so it contains that path, unless a stamping,
rendering, merging or moving step of a form kind processed before has thrown, in which
case it is the message of that step (`Doc generation/upload failed` for an empty
message). -/
theorem generateAndUploadDocs_missing_blank (env : PipelineEnv) (shipmentNumber : String)
    (body : ShipmentData)
    (hmissing : ∃ file ∈ ["INVOICES_BLANK.pdf", "232_FORM_BLANK.pdf", "TSCA_BLANK.pdf"],
      env.existsSync (env.pathJoin env.blanksDir file) = false) :
    (∃ message, (generateAndUploadDocs env shipmentNumber body).1
          = Response.error 500 message
        ∧ ((∃ file ∈ ["INVOICES_BLANK.pdf", "232_FORM_BLANK.pdf", "TSCA_BLANK.pdf"],
              env.existsSync (env.pathJoin env.blanksDir file) = false
                ∧ message = "Missing template: " ++ env.pathJoin env.blanksDir file
                ∧ (env.pathJoin env.blanksDir file).data <:+: message.data)
            ∨ ∃ a m, env.failure a = some m
                ∧ message = if m ≠ "" then m else "Doc generation/upload failed"))
      ∧ (∀ results, (generateAndUploadDocs env shipmentNumber body).1
          ≠ Response.ok shipmentNumber results)
      ∧ ((∀ a, env.failure a = none) →
          ∃ file ∈ ["INVOICES_BLANK.pdf", "232_FORM_BLANK.pdf", "TSCA_BLANK.pdf"],
            env.existsSync (env.pathJoin env.blanksDir file) = false
              ∧ (generateAndUploadDocs env shipmentNumber body).1
                = Response.error 500
                    ("Missing template: " ++ env.pathJoin env.blanksDir file)
              ∧ (env.pathJoin env.blanksDir file).data
                  <:+: ("Missing template: " ++ env.pathJoin env.blanksDir file).data) := by
  have hb : ∃ blank ∈ blanks,
      env.existsSync (env.pathJoin env.blanksDir blank.file) = false := by
    obtain ⟨file, hmem, hmiss⟩ := hmissing
    simp only [List.mem_cons, List.mem_singleton, List.not_mem_nil, or_false] at hmem
    rcases hmem with rfl | rfl | rfl
    · exact ⟨_, List.mem_cons_self _ _, hmiss⟩
    · exact ⟨_, List.mem_cons_of_mem _ (List.mem_cons_self _ _), hmiss⟩
    · exact ⟨_, List.mem_cons_of_mem _ (List.mem_cons_of_mem _ (List.mem_cons_self _ _)),
        hmiss⟩
  obtain ⟨m, hres, hor⟩ := processBlanks_missing env shipmentNumber
    { body with shipmentNumber := some shipmentNumber } blanks {} hb
  have hresp : (generateAndUploadDocs env shipmentNumber body).1
      = Response.error 500 (if m ≠ "" then m else "Doc generation/upload failed") := by
    unfold generateAndUploadDocs
    generalize processBlanks env shipmentNumber
      { body with shipmentNumber := some shipmentNumber } blanks {} = r at hres
    obtain ⟨r1, r2⟩ := r
    simp only at hres
    subst hres
    simp only [respond]
  have hfirst : ∃ message, (generateAndUploadDocs env shipmentNumber body).1
        = Response.error 500 message
      ∧ ((∃ file ∈ ["INVOICES_BLANK.pdf", "232_FORM_BLANK.pdf", "TSCA_BLANK.pdf"],
            env.existsSync (env.pathJoin env.blanksDir file) = false
              ∧ message = "Missing template: " ++ env.pathJoin env.blanksDir file
              ∧ (env.pathJoin env.blanksDir file).data <:+: message.data)
          ∨ ∃ a m, env.failure a = some m
              ∧ message = if m ≠ "" then m else "Doc generation/upload failed") := by
    refine ⟨_, hresp, ?_⟩
    rcases hor with ⟨blank, hmem, hmiss, hmsg⟩ | ⟨a, ha⟩
    · left
      have hfile : blank.file
          ∈ ["INVOICES_BLANK.pdf", "232_FORM_BLANK.pdf", "TSCA_BLANK.pdf"] := by
        simp only [blanks, List.mem_cons, List.mem_singleton, List.not_mem_nil,
          or_false] at hmem
        rcases hmem with rfl | rfl | rfl <;> simp
      have hne : "Missing template: " ++ env.pathJoin env.blanksDir blank.file ≠ "" :=
        append_ne_empty_left _ _ (by decide)
      refine ⟨blank.file, hfile, hmiss, ?_, ?_⟩
      · rw [hmsg]
        simp only [hne, ne_eq, not_false_eq_true, if_true]
      · rw [hmsg]
        simp only [hne, ne_eq, not_false_eq_true, if_true]
        rw [String.data_append]
        exact (List.suffix_append _ _).isInfix
    · right
      exact ⟨a, m, ha, rfl⟩
  refine ⟨hfirst, ?_, ?_⟩
  · intro results
    rw [hresp]
    exact fun h => Response.noConfusion h
  · intro hok
    obtain ⟨message, hmsg, hcase⟩ := hfirst
    rcases hcase with ⟨file, hfile, hmiss, heq, hinfix⟩ | ⟨a, m2, ha, _⟩
    · subst heq
      exact ⟨file, hfile, hmiss, hmsg, hinfix⟩
    · rw [hok a] at ha
      cases ha

theorem chunkArrayLoop_explicit {α : Type} (arr : List α) (R : Nat) (hR : 1 ≤ R) :
    ∀ (fuel i : Nat) (chunks : List (List α)), arr.length - i < fuel →
      chunkArrayLoop arr R fuel i chunks
        = some (chunks ++ (List.range ((arr.length - i + R - 1) / R)).map
            (fun j => slice arr (i + R * j) (i + R * j + R))) := by
  intro fuel
  induction fuel with
  | zero => intro i chunks h; omega
  | succ fuel ih =>
    intro i chunks h
    by_cases hi : i < arr.length
    · have hcount : (arr.length - i + R - 1) / R
          = (arr.length - (i + R) + R - 1) / R + 1 := by
        rw [chunk_count_step (arr.length - i) R hR (by omega)]
        have : arr.length - (i + R) = arr.length - i - R := by omega
        rw [this]
      rw [chunkArrayLoop, if_pos hi, ih (i + R) _ (by omega), hcount, List.range_succ_eq_map]
      simp only [List.map_cons, List.map_map, List.append_assoc, List.singleton_append,
        Nat.mul_zero, Nat.add_zero]
      congr 3
      apply List.map_congr_left
      intro j _
      simp only [Function.comp, Nat.mul_succ]
      congr 1 <;> omega
    · have h0 : (arr.length - i + R - 1) / R = 0 := by
        have : arr.length - i = 0 := by omega
        rw [this]
        exact Nat.div_eq_of_lt (by omega)
      rw [chunkArrayLoop, if_neg hi, h0]
      simp

theorem itemGroupsOf_eq (items : List Item) :
    itemGroupsOf items
      = (List.range ((items.length + 3) / 4)).map (fun j => slice items (4 * j) (4 * j + 4)) := by
  unfold itemGroupsOf maxProductsPerForm
  rw [chunkArrayLoop_explicit items 4 (by omega) (items.length + 1) 0 [] (by omega)]
  simp

theorem stampedForms_append (a b : List Action) :
    stampedForms (a ++ b) = stampedForms a ++ stampedForms b := by
  induction a with
  | nil => rfl
  | cons x rest ih => cases x <;> simp [stampedForms, ih]

theorem uploadTscaForm_stampedForms (env : PipelineEnv) (shipmentNumber : String)
    (shipmentData : ShipmentData) (i : Nat) (finalOutputPath : String) (st : PipelineState) :
    stampedForms (uploadTscaForm env shipmentNumber shipmentData i finalOutputPath st).effects
      = stampedForms st.effects := by
  simp only [uploadTscaForm]
  cases h : env.upload finalOutputPath (uploadOptions env shipmentData finalOutputPath) with
  | threw m => simp [PipelineState.log, stampedForms_append, stampedForms]
  | returned uploadRes =>
    by_cases hdoc : strOr (documentIdOf uploadRes) "" = ""
    · simp [hdoc, PipelineState.log, stampedForms_append, stampedForms]
    · cases h2 : env.push finalOutputPath
          (pushParams env shipmentNumber shipmentData finalOutputPath
            (documentIdOf uploadRes)) <;>
        simp [hdoc, h2, PipelineState.log, PipelineState.pushResult, stampedForms_append,
          stampedForms]

theorem uploadDocument_stampedForms (env : PipelineEnv) (shipmentNumber : String)
    (shipmentData : ShipmentData) (file outputPath : String) (st : PipelineState) :
    stampedForms (uploadDocument env shipmentNumber shipmentData file outputPath st).effects
      = stampedForms st.effects := by
  simp only [uploadDocument]
  cases h : env.upload outputPath (uploadOptions env shipmentData outputPath) with
  | threw m =>
    simp [PipelineState.log, PipelineState.pushResult, stampedForms_append, stampedForms]
  | returned uploadRes =>
    cases h2 : env.push outputPath
        (pushParams env shipmentNumber shipmentData outputPath (documentIdOf uploadRes)) <;>
      simp [h2, PipelineState.log, PipelineState.pushResult, stampedForms_append,
        stampedForms]

theorem processTscaGroup_stampedForms (env : PipelineEnv) (shipmentNumber : String)
    (shipmentData : ShipmentData) (file inputPath outputPath : String) (groupCount : Nat)
    (st : PipelineState) (group : List Item) (i : Nat) :
    stampedForms (processTscaGroup env shipmentNumber shipmentData file inputPath outputPath
        groupCount st group i).effects
      = stampedForms st.effects
        ++ [(tscaOutputPath env shipmentNumber file groupCount i,
            buildCustomsLinesFromShipment env.mapper
              { shipmentData with items := some group } "TSCA")] := by
  unfold processTscaGroup
  rw [uploadTscaForm_stampedForms]
  by_cases h1 : tscaOutputPath env shipmentNumber file groupCount i ≠ outputPath
  · simp [h1, PipelineState.log, stampedForms_append, stampedForms]
  · by_cases h2 : env.existsSync outputPath = true
    · simp [h1, h2, PipelineState.log, stampedForms_append, stampedForms]
    · simp [h1, h2, PipelineState.log, stampedForms_append, stampedForms]

theorem processTscaGroups_stampedForms (env : PipelineEnv) (shipmentNumber : String)
    (shipmentData : ShipmentData) (file inputPath outputPath : String) (groupCount : Nat)
    (groups : List (List Item)) :
    ∀ (i : Nat) (st : PipelineState),
      stampedForms (processTscaGroups env shipmentNumber shipmentData file inputPath
          outputPath groupCount groups i st).effects
        = stampedForms st.effects
          ++ mapIdxFrom (fun group idx =>
              (tscaOutputPath env shipmentNumber file groupCount idx,
                buildCustomsLinesFromShipment env.mapper
                  { shipmentData with items := some group } "TSCA")) groups i := by
  induction groups with
  | nil => intro i st; simp [processTscaGroups, mapIdxFrom]
  | cons g rest ih =>
    intro i st
    rw [processTscaGroups, ih, processTscaGroup_stampedForms]
    simp [mapIdxFrom]

theorem mapIdxFrom_map_range {α β : Type} (f : α → Nat → β) (g : Nat → α) :
    ∀ (n start : Nat),
      mapIdxFrom f ((List.range' start n).map g) start
        = (List.range' start n).map (fun i => f (g i) i) := by
  intro n
  induction n with
  | zero => intro start; rfl
  | succ n ih =>
    intro start
    rw [List.range'_succ]
    simp only [List.map_cons, mapIdxFrom]
    rw [ih]

theorem tscaBranch_stampedForms (env : PipelineEnv) (shipmentNumber : String)
    (shipmentData : ShipmentData) (file inputPath outputPath : String) (st : PipelineState) :
    stampedForms (tscaBranch env shipmentNumber shipmentData file inputPath outputPath
        st).effects
      = stampedForms st.effects
        ++ (List.range (((shipmentData.items.getD []).length + 3) / 4)).map (fun i =>
            (tscaOutputPath env shipmentNumber file
                (((shipmentData.items.getD []).length + 3) / 4) i,
              buildCustomsLinesFromShipment env.mapper
                { shipmentData with
                  items := some (slice (shipmentData.items.getD []) (4 * i) (4 * i + 4)) }
                "TSCA")) := by
  unfold tscaBranch
  simp only []
  rw [processTscaGroups_stampedForms, itemGroupsOf_eq, List.length_map, List.length_range,
    List.range_eq_range', mapIdxFrom_map_range]

theorem slice_length {α : Type} (arr : List α) (a b : Nat) :
    (slice arr a b).length = min b arr.length - a := by
  simp [slice, List.length_drop, List.length_take]

theorem slice_getElem? {α : Type} (arr : List α) (a size j : Nat) (hj : j < size) :
    (slice arr a (a + size))[j]? = arr[a + j]? := by
  rw [slice_succ, List.getElem?_take_of_lt hj, List.getElem?_drop]

theorem ceil_div_four (L : Nat) : ⌈(L : ℚ) / 4⌉₊ = (L + 3) / 4 := by
  have h := ceil_div_eq L 4 (by omega)
  simpa using h

/-- C7: for every shipment with `L` line items, the TSCA branch stamps exactly
`ceil(L / 4)` documents: the groups it builds are, for `i = 0, ..., ceil(L / 4) - 1`,
the items `4i .. min(4i + 3, L - 1)` in their order, and document `i` is the blank filled
with the fields the mapper builds from group `i`; every group but the last has 4 items
and the last has `L - 4 * (ceil(L / 4) - 1)`; for `L = 30` there are 8 documents, the
eighth with 2 items and the other seven with 4 each. -/
theorem tscaBranch_stamps_one_form_per_group (env : PipelineEnv) (shipmentNumber : String)
    (shipmentData : ShipmentData) (file inputPath outputPath : String) (st : PipelineState)
    (items : List Item) (hitems : shipmentData.items.getD [] = items)
    (n : Nat) (hn : n = ⌈(items.length : ℚ) / 4⌉₊) :
    itemGroupsOf items = (List.range n).map (fun i => slice items (4 * i) (4 * i + 4))
      ∧ stampedForms (tscaBranch env shipmentNumber shipmentData file inputPath outputPath
            st).effects
          = stampedForms st.effects
            ++ (List.range n).map (fun i =>
                (tscaOutputPath env shipmentNumber file n i,
                  buildCustomsLinesFromShipment env.mapper
                    { shipmentData with items := some (slice items (4 * i) (4 * i + 4)) }
                    "TSCA"))
      ∧ (∀ i j, i < n → j < 4 → (slice items (4 * i) (4 * i + 4))[j]? = items[4 * i + j]?)
      ∧ (∀ i, i + 1 < n → (slice items (4 * i) (4 * i + 4)).length = 4)
      ∧ (0 < n →
          (slice items (4 * (n - 1)) (4 * (n - 1) + 4)).length = items.length - 4 * (n - 1))
      ∧ (items.length = 30 →
          n = 8 ∧ (slice items (4 * 7) (4 * 7 + 4)).length = 2
            ∧ ∀ i, i < 7 → (slice items (4 * i) (4 * i + 4)).length = 4) := by
  rw [ceil_div_four] at hn
  subst hn
  refine ⟨itemGroupsOf_eq items, ?_, ?_, ?_, ?_, ?_⟩
  · rw [tscaBranch_stampedForms, hitems]
  · intro i j _ hj
    exact slice_getElem? items (4 * i) 4 j hj
  · intro i hi
    rw [slice_length]
    omega
  · intro hpos
    rw [slice_length]
    omega
  · intro h30
    refine ⟨by omega, ?_, ?_⟩
    · rw [slice_length]; omega
    · intro i hi
      rw [slice_length]; omega

/-- Witness of C7: a shipment with thirty items. -/
theorem tscaBranch_stamps_one_form_per_group_witness :
    (thirtyItemShipment.items.getD [] = List.replicate 30 {})
      ∧ (8 = ⌈((List.replicate 30 ({} : Item)).length : ℚ) / 4⌉₊)
      ∧ (stampedForms (tscaBranch tscaUploadFailsEnv "1Z999" thirtyItemShipment
            "TSCA_BLANK.pdf" "/srv/CUSTOMS_DOCs_BLANK/TSCA_BLANK.pdf"
            "/srv/generated_docs/TSCA_BLANK_1Z999.pdf" {}).effects).length = 8 := by
  have hn : 8 = ⌈((List.replicate 30 ({} : Item)).length : ℚ) / 4⌉₊ := by
    rw [ceil_div_four]; rfl
  refine ⟨rfl, hn, ?_⟩
  have h := (tscaBranch_stamps_one_form_per_group tscaUploadFailsEnv "1Z999"
    thirtyItemShipment "TSCA_BLANK.pdf" "/srv/CUSTOMS_DOCs_BLANK/TSCA_BLANK.pdf"
    "/srv/generated_docs/TSCA_BLANK_1Z999.pdf" {} (List.replicate 30 {}) rfl 8 hn).2.1
  rw [h]
  simp [stampedForms]

theorem processBlank_other_stampedForms (env : PipelineEnv) (hok : ∀ a, env.failure a = none)
    (shipmentNumber : String)
    (shipmentData : ShipmentData) (st : PipelineState) (blank : Blank)
    (hfile : blank.file ≠ "TSCA_BLANK.pdf")
    (h : env.existsSync (env.pathJoin env.blanksDir blank.file) = true) :
    stampedForms (processBlank env shipmentNumber shipmentData st blank).1.effects
      = stampedForms st.effects := by
  unfold processBlank
  simp only [h, Bool.not_true, Bool.false_eq_true, if_false, hfile, ne_eq, not_false_eq_true,
    if_true, runStep_ok env hok, thenStep]
  by_cases hinv : blank.file = "INVOICES_BLANK.pdf"
  · simp only [hinv, if_true, invoiceItemsFlow_ok env hok]
    rw [uploadDocument_stampedForms]
    simp [PipelineState.log, stampedForms_append, stampedForms]
  · simp only [hinv, if_false]
    rw [uploadDocument_stampedForms]
    simp [PipelineState.log, stampedForms_append, stampedForms]

/-- When the three blanks exist and no step throws, the stamped TSCA documents of a request
are those of the TSCA branch. -/
theorem generateAndUploadDocs_stampedForms (env : PipelineEnv) (hok : ∀ a, env.failure a = none)
    (shipmentNumber : String) (body : ShipmentData)
    (h1 : env.existsSync (env.pathJoin env.blanksDir "INVOICES_BLANK.pdf") = true)
    (h2 : env.existsSync (env.pathJoin env.blanksDir "232_FORM_BLANK.pdf") = true)
    (h3 : env.existsSync (env.pathJoin env.blanksDir "TSCA_BLANK.pdf") = true) :
    stampedForms (generateAndUploadDocs env shipmentNumber body).2
      = (List.range (((body.items.getD []).length + 3) / 4)).map (fun i =>
          (tscaOutputPath env shipmentNumber "TSCA_BLANK.pdf"
              (((body.items.getD []).length + 3) / 4) i,
            buildCustomsLinesFromShipment env.mapper
              { body with
                shipmentNumber := some shipmentNumber,
                items := some (slice (body.items.getD []) (4 * i) (4 * i + 4)) }
              "TSCA")) := by
  have hA := processBlank_other_stampedForms env hok shipmentNumber
    { body with shipmentNumber := some shipmentNumber } {}
    (Blank.mk "INVOICES_BLANK.pdf" "COMMERCIAL_INVOICE") (by decide) h1
  have hAn := processBlank_present env hok shipmentNumber
    { body with shipmentNumber := some shipmentNumber } {}
    (Blank.mk "INVOICES_BLANK.pdf" "COMMERCIAL_INVOICE") h1
  generalize hr1 : processBlank env shipmentNumber
    { body with shipmentNumber := some shipmentNumber } {}
    (Blank.mk "INVOICES_BLANK.pdf" "COMMERCIAL_INVOICE") = r1 at hA hAn
  obtain ⟨s1, e1⟩ := r1
  simp only at hA hAn
  subst hAn
  have hB := processBlank_other_stampedForms env hok shipmentNumber
    { body with shipmentNumber := some shipmentNumber } s1
    (Blank.mk "232_FORM_BLANK.pdf" "OTHER") (by decide) h2
  have hBn := processBlank_present env hok shipmentNumber
    { body with shipmentNumber := some shipmentNumber } s1
    (Blank.mk "232_FORM_BLANK.pdf" "OTHER") h2
  generalize hr2 : processBlank env shipmentNumber
    { body with shipmentNumber := some shipmentNumber } s1
    (Blank.mk "232_FORM_BLANK.pdf" "OTHER") = r2 at hB hBn
  obtain ⟨s2, e2⟩ := r2
  simp only at hB hBn
  subst hBn
  have hC : processBlank env shipmentNumber
      { body with shipmentNumber := some shipmentNumber } s2
      (Blank.mk "TSCA_BLANK.pdf" "OTHER")
      = (tscaBranch env shipmentNumber { body with shipmentNumber := some shipmentNumber }
          "TSCA_BLANK.pdf" (env.pathJoin env.blanksDir "TSCA_BLANK.pdf")
          (env.pathJoin env.outputDir
            (pathParseName "TSCA_BLANK.pdf" ++ "_" ++ shipmentNumber ++ ".pdf")) s2, none) := by
    simp [processBlank, h3, thenStep]
  unfold generateAndUploadDocs
  simp only [blanks, processBlanks, hr1, hr2, hC, respond]
  rw [tscaBranch_stampedForms, hB, hA]
  simp [stampedForms]

/-- For a form kind other than TSCA the result object is pushed whatever the carrier calls
do: exactly one entry with the template name and the output path, and without
`uploadResponse` and `pushResponse` when the upload or the association call throws. -/
theorem uploadDocument_keeps_result (env : PipelineEnv) (shipmentNumber : String)
    (shipmentData : ShipmentData) (file outputPath : String) (st : PipelineState) :
    ∃ r : UploadResult,
      (uploadDocument env shipmentNumber shipmentData file outputPath st).uploadResults
          = st.uploadResults ++ [r]
        ∧ r.template = file ∧ r.outputPath = outputPath
        ∧ ((∃ m, env.upload outputPath (uploadOptions env shipmentData outputPath)
                = CallOutcome.threw m)
            → r.uploadResponse = none ∧ r.pushResponse = none)
        ∧ (∀ uploadRes,
            env.upload outputPath (uploadOptions env shipmentData outputPath)
                = CallOutcome.returned uploadRes →
            (∃ m, env.push outputPath
                (pushParams env shipmentNumber shipmentData outputPath
                  (documentIdOf uploadRes)) = CallOutcome.threw m) →
            r.uploadResponse = none ∧ r.pushResponse = none) := by
  simp only [uploadDocument]
  cases h : env.upload outputPath (uploadOptions env shipmentData outputPath) with
  | threw m =>
    refine ⟨{ template := file, outputPath := outputPath }, ?_, rfl, rfl, ?_, ?_⟩
    · simp [PipelineState.log, PipelineState.pushResult]
    · intro _; exact ⟨rfl, rfl⟩
    · intro uploadRes hres; cases hres
  | returned uploadRes =>
    cases h2 : env.push outputPath
        (pushParams env shipmentNumber shipmentData outputPath (documentIdOf uploadRes)) with
    | threw m =>
      refine ⟨{ template := file, outputPath := outputPath }, ?_, rfl, rfl, ?_, ?_⟩
      · simp [h2, PipelineState.log, PipelineState.pushResult]
      · intro _; exact ⟨rfl, rfl⟩
      · intro _ _ _; exact ⟨rfl, rfl⟩
    | returned pushRes =>
      refine ⟨{ template := file, outputPath := outputPath,
                uploadResponse := some uploadRes, pushResponse := some pushRes }, ?_, rfl, rfl,
        ?_, ?_⟩
      · simp [h2, PipelineState.log, PipelineState.pushResult]
      · intro hm; obtain ⟨m, hm⟩ := hm; cases hm
      · intro u hu hm
        cases hu
        obtain ⟨m, hm⟩ := hm
        rw [h2] at hm
        cases hm

/-- For a TSCA form no result is pushed when the upload throws, when the upload returns no
document id, or when the association call throws. -/
theorem uploadTscaForm_drops_result (env : PipelineEnv) (shipmentNumber : String)
    (shipmentData : ShipmentData) (i : Nat) (finalOutputPath : String) (st : PipelineState) :
    ((∃ m, env.upload finalOutputPath (uploadOptions env shipmentData finalOutputPath)
          = CallOutcome.threw m) →
        (uploadTscaForm env shipmentNumber shipmentData i finalOutputPath st).uploadResults
          = st.uploadResults)
      ∧ (∀ uploadRes,
          env.upload finalOutputPath (uploadOptions env shipmentData finalOutputPath)
              = CallOutcome.returned uploadRes →
          (∃ m, env.push finalOutputPath
              (pushParams env shipmentNumber shipmentData finalOutputPath
                (documentIdOf uploadRes)) = CallOutcome.threw m) →
          (uploadTscaForm env shipmentNumber shipmentData i finalOutputPath st).uploadResults
            = st.uploadResults) := by
  simp only [uploadTscaForm]
  refine ⟨?_, ?_⟩
  · intro hm
    obtain ⟨m, hm⟩ := hm
    simp [hm, PipelineState.log]
  · intro uploadRes hu hm
    obtain ⟨m, hm⟩ := hm
    by_cases hdoc : strOr (documentIdOf uploadRes) "" = ""
    · simp [hu, hdoc, PipelineState.log]
    · simp [hu, hdoc, hm, PipelineState.log]

/-- C8, at the failing input: every blank exists, the shipment has one item, and the
upload of the TSCA form throws. The TSCA form is generated, yet `uploadResults` has the
entries of the invoice and of the 232 form only: none for the TSCA form. -/
theorem generateAndUploadDocs_tsca_upload_failure :
    (stampedForms (generateAndUploadDocs tscaUploadFailsEnv "1Z999" oneItemShipment).2).map
        (fun form => form.1)
      = ["/srv/generated_docs/TSCA_BLANK_1Z999.pdf"]
    ∧ tscaUploadFailsEnv.upload "/srv/generated_docs/TSCA_BLANK_1Z999.pdf"
        (uploadOptions tscaUploadFailsEnv
          { oneItemShipment with shipmentNumber := some "1Z999" }
          "/srv/generated_docs/TSCA_BLANK_1Z999.pdf")
      = CallOutcome.threw "UPS upload error 500: undefined"
    ∧ (generateAndUploadDocs tscaUploadFailsEnv "1Z999" oneItemShipment).1
      = Response.ok "1Z999"
          [ { template := "INVOICES_BLANK.pdf",
              outputPath := "/srv/generated_docs/INVOICES_BLANK_1Z999.pdf",
              uploadResponse := some (some (UploadResponse.mk (some "DOC1") "")),
              pushResponse := some (some (PushResponse.mk "")) },
            { template := "232_FORM_BLANK.pdf",
              outputPath := "/srv/generated_docs/232_FORM_BLANK_1Z999.pdf",
              uploadResponse := some (some (UploadResponse.mk (some "DOC1") "")),
              pushResponse := some (some (PushResponse.mk "")) } ] := by
  refine ⟨?_, by decide, by decide⟩
  rw [generateAndUploadDocs_stampedForms tscaUploadFailsEnv (fun _ => rfl) "1Z999"
    oneItemShipment (by decide) (by decide) (by decide)]
  decide

/-- Witness of C9: the blank of the 232 form is missing and no step throws. -/
theorem generateAndUploadDocs_missing_blank_witness :
    (generateAndUploadDocs
        { tscaUploadFailsEnv with
          existsSync := fun p => p != "/srv/CUSTOMS_DOCs_BLANK/232_FORM_BLANK.pdf" }
        "1Z999" oneItemShipment).1
      = Response.error 500 "Missing template: /srv/CUSTOMS_DOCs_BLANK/232_FORM_BLANK.pdf" := by
  obtain ⟨file, hfile, hmiss, hresp, _⟩ := (generateAndUploadDocs_missing_blank
    { tscaUploadFailsEnv with
      existsSync := fun p => p != "/srv/CUSTOMS_DOCs_BLANK/232_FORM_BLANK.pdf" }
    "1Z999" oneItemShipment ⟨"232_FORM_BLANK.pdf", by simp, by decide⟩).2.2 (fun _ => rfl)
  simp only [List.mem_cons, List.mem_singleton, List.not_mem_nil, or_false] at hfile
  rcases hfile with rfl | rfl | rfl
  · exact absurd hmiss (by decide)
  · rw [hresp]; decide
  · exact absurd hmiss (by decide)


/-! ## The TSCA field claims -/

theorem mapIdxFrom_getElem? {α β : Type} (f : α → Nat → β) :
    ∀ (l : List α) (start i : Nat),
      (mapIdxFrom f l start)[i]? = (l[i]?).map (fun a => f a (start + i)) := by
  intro l
  induction l with
  | nil => intro start i; simp [mapIdxFrom]
  | cons a rest ih =>
    intro start i
    cases i with
    | zero => simp [mapIdxFrom]
    | succ i =>
      simp only [mapIdxFrom, List.getElem?_cons_succ, ih]
      congr 1
      funext b
      congr 1
      omega

theorem slice_zero {α : Type} (arr : List α) (n : Nat) : slice arr 0 n = arr.take n := by
  simp [slice]

theorem buildCustomsLines_tsca_eq (env : MapperEnv) (shipment : ShipmentData) :
    buildCustomsLinesFromShipment env shipment "TSCA"
      = [ fieldAt (strOr shipment.shipmentNumber "") 240 127,
          fieldAt env.currentDate 327 720 ]
        ++ mapIdxFrom tscaProductField ((shipment.items.getD []).take 4) 0 := by
  simp [buildCustomsLinesFromShipment, slice_zero]

/-- C11: for every shipment whose item list has `n` items,
`buildCustomsLinesFromShipment(shipment, 'TSCA')` returns exactly `2 + min(n, 4)` fields:
the shipment-number field and the date field, then one field per item among the first
`min(n, 4)` items in their order, the `i`-th of them at `x = 50` and
`y = [539, 554, 569, 584][i]`; the items after the fourth add nothing; and the position of
the field at an index is the same for every shipment, so it does not depend on the group
of items that was passed. -/
theorem buildCustomsLines_tsca_fields (env : MapperEnv) (shipment : ShipmentData)
    (items : List Item) (hitems : shipment.items.getD [] = items) :
    (buildCustomsLinesFromShipment env shipment "TSCA").length = 2 + min items.length 4
      ∧ (buildCustomsLinesFromShipment env shipment "TSCA")[0]?
          = some (fieldAt (strOr shipment.shipmentNumber "") 240 127)
      ∧ (buildCustomsLinesFromShipment env shipment "TSCA")[1]?
          = some (fieldAt env.currentDate 327 720)
      ∧ (∀ i, i < min items.length 4 →
          ∃ item y, items[i]? = some item
            ∧ ([539, 554, 569, 584] : List ℚ)[i]? = some y
            ∧ (buildCustomsLinesFromShipment env shipment "TSCA")[2 + i]?
              = some { text := some (" ".intercalate
                          ((splitSpace (strOr item.description (strOr item.name ""))).take 4)),
                       x := some 50, y := some y })
      ∧ buildCustomsLinesFromShipment env shipment "TSCA"
          = buildCustomsLinesFromShipment env { shipment with items := some (items.take 4) }
              "TSCA"
      ∧ (∀ (env2 : MapperEnv) (shipment2 : ShipmentData) (k : Nat) (f f2 : TextField),
          (buildCustomsLinesFromShipment env shipment "TSCA")[k]? = some f →
          (buildCustomsLinesFromShipment env2 shipment2 "TSCA")[k]? = some f2 →
          f.x = f2.x ∧ f.y = f2.y ∧ f.page = f2.page) := by
  refine ⟨?_, ?_, ?_, ?_, ?_, ?_⟩
  · rw [buildCustomsLines_tsca_eq, hitems]
    simp [mapIdxFrom_length, List.length_take]
    omega
  · rw [buildCustomsLines_tsca_eq]; rfl
  · rw [buildCustomsLines_tsca_eq]; simp
  · intro i hi
    have hlt : i < items.length := lt_of_lt_of_le hi (min_le_left _ _)
    have hlt4 : i < 4 := lt_of_lt_of_le hi (min_le_right _ _)
    have hy : ∃ y, ([539, 554, 569, 584] : List ℚ)[i]? = some y :=
      ⟨([539, 554, 569, 584] : List ℚ)[i], List.getElem?_eq_getElem (by simpa using hlt4)⟩
    obtain ⟨y, hy⟩ := hy
    refine ⟨items[i], y, List.getElem?_eq_getElem hlt, hy, ?_⟩
    rw [buildCustomsLines_tsca_eq, hitems]
    have h2 : 2 + i = i + 2 := by omega
    rw [h2]
    simp only [List.cons_append, List.nil_append, List.getElem?_cons_succ,
      mapIdxFrom_getElem?, List.getElem?_take_of_lt hlt4, List.getElem?_eq_getElem hlt,
      Option.map_some', Nat.zero_add, tscaProductField, productYPositions, hy]
  · rw [buildCustomsLines_tsca_eq, buildCustomsLines_tsca_eq, hitems]
    simp [List.take_take]
  · intro env2 shipment2 k f f2 hf hf2
    rw [buildCustomsLines_tsca_eq] at hf hf2
    match k with
    | 0 =>
      simp only [List.cons_append, List.getElem?_cons_zero, Option.some.injEq] at hf hf2
      subst hf; subst hf2
      exact ⟨rfl, rfl, rfl⟩
    | 1 =>
      simp only [List.cons_append, List.getElem?_cons_succ, List.getElem?_cons_zero,
        Option.some.injEq] at hf hf2
      subst hf; subst hf2
      exact ⟨rfl, rfl, rfl⟩
    | k + 2 =>
      simp only [List.cons_append, List.nil_append, List.getElem?_cons_succ,
        mapIdxFrom_getElem?, Option.map_eq_some'] at hf hf2
      obtain ⟨a, _, rfl⟩ := hf
      obtain ⟨a2, _, rfl⟩ := hf2
      exact ⟨rfl, rfl, rfl⟩

/-- Witness of C11: of five items the first four get a field. -/
theorem buildCustomsLines_tsca_fields_witness :
    (buildCustomsLinesFromShipment (MapperEnv.mk "11/05/2026" 1762300800000 7)
        fiveItemShipment "TSCA").length = 2 + min 5 4 :=
  (buildCustomsLines_tsca_fields (MapperEnv.mk "11/05/2026" 1762300800000 7) fiveItemShipment
    _ rfl).1

/-! ## Decimal texts -/

theorem toDigitsCore_append (fuel : Nat) :
    ∀ (n : Nat) (ds : List Char),
      Nat.toDigitsCore 10 fuel n ds = Nat.toDigitsCore 10 fuel n [] ++ ds := by
  induction fuel with
  | zero => intro n ds; simp [Nat.toDigitsCore]
  | succ fuel ih =>
    intro n ds
    simp only [Nat.toDigitsCore]
    by_cases h : n / 10 = 0
    · simp [h]
    · simp only [h, if_false]
      rw [ih (n / 10) (Nat.digitChar (n % 10) :: ds), ih (n / 10) [Nat.digitChar (n % 10)]]
      simp

theorem toDigitsCore_fuel (fuel1 : Nat) :
    ∀ (fuel2 n : Nat), n < fuel1 → n < fuel2 →
      Nat.toDigitsCore 10 fuel1 n [] = Nat.toDigitsCore 10 fuel2 n [] := by
  induction fuel1 with
  | zero => intro fuel2 n h; omega
  | succ fuel1 ih =>
    intro fuel2 n h1 h2
    cases fuel2 with
    | zero => omega
    | succ fuel2 =>
      simp only [Nat.toDigitsCore]
      by_cases h : n / 10 = 0
      · simp [h]
      · simp only [h, if_false]
        rw [toDigitsCore_append fuel1, toDigitsCore_append fuel2,
          ih fuel2 (n / 10) (by omega) (by omega)]

theorem toDigits_lt_ten (n : Nat) (h : n < 10) : Nat.toDigits 10 n = [Nat.digitChar n] := by
  have h0 : n / 10 = 0 := by omega
  have h1 : n % 10 = n := by omega
  simp [Nat.toDigits, Nat.toDigitsCore, h0, h1]

theorem toDigits_ten_le (n : Nat) (h : 10 ≤ n) :
    Nat.toDigits 10 n = Nat.toDigits 10 (n / 10) ++ [Nat.digitChar (n % 10)] := by
  have h0 : ¬ n / 10 = 0 := by omega
  have hstep : Nat.toDigitsCore 10 (n + 1) n []
      = Nat.toDigitsCore 10 n (n / 10) [Nat.digitChar (n % 10)] := by
    rw [Nat.toDigitsCore]
    simp only [h0, if_false]
  unfold Nat.toDigits
  rw [hstep, toDigitsCore_append,
    toDigitsCore_fuel n (n / 10 + 1) (n / 10) (by omega) (by omega)]

theorem toString_nat_data (n : Nat) : (toString n).data = Nat.toDigits 10 n := rfl

theorem toDigits_two (n : Nat) (h1 : 10 ≤ n) (h2 : n < 100) :
    Nat.toDigits 10 n = [Nat.digitChar (n / 10), Nat.digitChar (n % 10)] := by
  rw [toDigits_ten_le n h1, toDigits_lt_ten (n / 10) (by omega)]
  rfl

theorem toDigits_four (n : Nat) (h1 : 1000 ≤ n) (h2 : n < 10000) :
    Nat.toDigits 10 n
      = [Nat.digitChar (n / 1000), Nat.digitChar (n / 100 % 10), Nat.digitChar (n / 10 % 10),
          Nat.digitChar (n % 10)] := by
  have e1 : n / 10 / 10 = n / 100 := by omega
  have e2 : n / 100 / 10 = n / 1000 := by omega
  rw [toDigits_ten_le n (by omega), toDigits_ten_le (n / 10) (by omega),
    toDigits_ten_le (n / 10 / 10) (by omega), toDigits_lt_ten (n / 10 / 10 / 10) (by omega),
    e1, e2]
  rfl

theorem pad_data (n : Nat) (h : n < 100) :
    (pad n).data = [Nat.digitChar (n / 10), Nat.digitChar (n % 10)] := by
  unfold pad
  by_cases h10 : n < 10
  · have hd : (toString n).data = [Nat.digitChar n] := by
      rw [toString_nat_data, toDigits_lt_ten n h10]
    have hl : (toString n).length = 1 := by
      rw [String.length, hd]; rfl
    have h0 : n / 10 = 0 := by omega
    have h1 : n % 10 = n := by omega
    simp only [hl, String.data_append, hd, h0, h1]
    rfl
  · have hd : (toString n).data = [Nat.digitChar (n / 10), Nat.digitChar (n % 10)] := by
      rw [toString_nat_data, toDigits_two n (by omega) h]
    have hl : (toString n).length = 2 := by
      rw [String.length, hd]; rfl
    simp only [hl, String.data_append, hd]
    rfl

/-- C14: for every date-time with year in 1000..9999, month in 1..12 (`getMonth()` in
0..11), day in 1..31, hour in 0..23, minute in 0..59 and second in 0..59, the
`shipmentDateTime` that the pipeline passes to `upsPushDocumentToShipment` has exactly 19
characters in the layout `YYYY-MM-DD-HH.MM.SS`: the four digits of the year, `-`, the two
digits of the month, `-`, the two digits of the day, `-`, the two digits of the hour, `.`,
the two digits of the minute, `.`, the two digits of the second, a value below ten getting
a leading zero. -/
theorem pushParams_shipmentDateTime_layout (env : PipelineEnv) (shipmentNumber : String)
    (shipmentData : ShipmentData) (filePath : String) (documentId : Option String)
    (now : DateTime) (hnow : env.now filePath = now)
    (hyear : 1000 ≤ now.fullYear ∧ now.fullYear ≤ 9999)
    (hmonth : 1 ≤ now.month + 1 ∧ now.month + 1 ≤ 12)
    (hday : 1 ≤ now.date ∧ now.date ≤ 31)
    (hhour : now.hours ≤ 23) (hminute : now.minutes ≤ 59) (hsecond : now.seconds ≤ 59) :
    (pushParams env shipmentNumber shipmentData filePath documentId).shipmentDateTime.data
        = [ Nat.digitChar (now.fullYear / 1000), Nat.digitChar (now.fullYear / 100 % 10),
            Nat.digitChar (now.fullYear / 10 % 10), Nat.digitChar (now.fullYear % 10), '-',
            Nat.digitChar ((now.month + 1) / 10), Nat.digitChar ((now.month + 1) % 10), '-',
            Nat.digitChar (now.date / 10), Nat.digitChar (now.date % 10), '-',
            Nat.digitChar (now.hours / 10), Nat.digitChar (now.hours % 10), '.',
            Nat.digitChar (now.minutes / 10), Nat.digitChar (now.minutes % 10), '.',
            Nat.digitChar (now.seconds / 10), Nat.digitChar (now.seconds % 10) ]
      ∧ (pushParams env shipmentNumber shipmentData filePath documentId).shipmentDateTime.length
        = 19 := by
  have hdata : (shipmentDateTime now).data
      = [ Nat.digitChar (now.fullYear / 1000), Nat.digitChar (now.fullYear / 100 % 10),
          Nat.digitChar (now.fullYear / 10 % 10), Nat.digitChar (now.fullYear % 10), '-',
          Nat.digitChar ((now.month + 1) / 10), Nat.digitChar ((now.month + 1) % 10), '-',
          Nat.digitChar (now.date / 10), Nat.digitChar (now.date % 10), '-',
          Nat.digitChar (now.hours / 10), Nat.digitChar (now.hours % 10), '.',
          Nat.digitChar (now.minutes / 10), Nat.digitChar (now.minutes % 10), '.',
          Nat.digitChar (now.seconds / 10), Nat.digitChar (now.seconds % 10) ] := by
    unfold shipmentDateTime
    simp only [String.data_append, toString_nat_data,
      toDigits_four now.fullYear hyear.1 (by omega), pad_data (now.month + 1) (by omega),
      pad_data now.date (by omega), pad_data now.hours (by omega),
      pad_data now.minutes (by omega), pad_data now.seconds (by omega)]
    rfl
  have hp : (pushParams env shipmentNumber shipmentData filePath documentId).shipmentDateTime
      = shipmentDateTime now := by
    simp [pushParams, hnow]
  rw [hp]
  refine ⟨hdata, ?_⟩
  rw [String.length, hdata]
  rfl

/-- Witness of C14: 5 November 2026, 09:03:07. -/
theorem pushParams_shipmentDateTime_layout_witness :
    (pushParams tscaUploadFailsEnv "1Z999" oneItemShipment
        "/srv/generated_docs/INVOICES_BLANK_1Z999.pdf" (some "DOC1")).shipmentDateTime.length
      = 19
    ∧ (pushParams tscaUploadFailsEnv "1Z999" oneItemShipment
        "/srv/generated_docs/INVOICES_BLANK_1Z999.pdf" (some "DOC1")).shipmentDateTime
      = "2026-11-05-09.03.07" :=
  ⟨(pushParams_shipmentDateTime_layout tscaUploadFailsEnv "1Z999" oneItemShipment
      "/srv/generated_docs/INVOICES_BLANK_1Z999.pdf" (some "DOC1")
      (DateTime.mk 2026 10 5 9 3 7) rfl (by decide) (by decide) (by decide) (by decide)
      (by decide) (by decide)).2,
    by decide⟩

/-! ## The output name claim -/

theorem digitChar_injective (a b : Nat) (ha : a < 10) (hb : b < 10)
    (h : Nat.digitChar a = Nat.digitChar b) : a = b := by
  revert h
  interval_cases a <;> interval_cases b <;> decide

theorem toDigits_ne_nil (n : Nat) : Nat.toDigits 10 n ≠ [] := by
  by_cases h : n < 10
  · rw [toDigits_lt_ten n h]; simp
  · rw [toDigits_ten_le n (by omega)]; simp

theorem toDigits_injective (a : Nat) :
    ∀ b : Nat, Nat.toDigits 10 a = Nat.toDigits 10 b → a = b := by
  induction a using Nat.strong_induction_on with
  | _ a ih =>
    intro b h
    by_cases ha : a < 10
    · by_cases hb : b < 10
      · rw [toDigits_lt_ten a ha, toDigits_lt_ten b hb] at h
        exact digitChar_injective a b ha hb (by simpa using h)
      · rw [toDigits_lt_ten a ha, toDigits_ten_le b (by omega)] at h
        have hlen := congrArg List.length h
        have hpos := List.length_pos.mpr (toDigits_ne_nil (b / 10))
        simp only [List.length_append, List.length_singleton, List.length_cons,
          List.length_nil] at hlen
        omega
    · by_cases hb : b < 10
      · rw [toDigits_ten_le a (by omega), toDigits_lt_ten b hb] at h
        have hlen := congrArg List.length h
        have hpos := List.length_pos.mpr (toDigits_ne_nil (a / 10))
        simp only [List.length_append, List.length_singleton, List.length_cons,
          List.length_nil] at hlen
        omega
      · rw [toDigits_ten_le a (by omega), toDigits_ten_le b (by omega)] at h
        obtain ⟨h1, h2⟩ := List.append_inj' h rfl
        have hq := ih (a / 10) (by omega) (b / 10) h1
        have hr := digitChar_injective (a % 10) (b % 10) (Nat.mod_lt _ (by omega))
          (Nat.mod_lt _ (by omega)) (by simpa using h2)
        omega

theorem toString_nat_injective (a b : Nat) (h : toString a = toString b) : a = b := by
  apply toDigits_injective a b
  rw [← toString_nat_data, ← toString_nat_data, h]

theorem tscaOutputName_many (shipmentNumber : String) (g i : Nat) (hg : 1 < g) :
    tscaOutputName shipmentNumber "TSCA_BLANK.pdf" g i
      = "TSCA_BLANK_" ++ shipmentNumber ++ "_" ++ toString (i + 1) ++ ".pdf" := by
  have hname : pathParseName "TSCA_BLANK.pdf" = "TSCA_BLANK" := by decide
  apply String.ext
  simp only [tscaOutputName, hname, hg, gt_iff_lt, if_true, String.data_append,
    List.append_assoc]
  rfl

theorem tscaOutputName_single (shipmentNumber : String) (i : Nat) :
    tscaOutputName shipmentNumber "TSCA_BLANK.pdf" 1 i
      = "TSCA_BLANK_" ++ shipmentNumber ++ ".pdf" := by
  have hname : pathParseName "TSCA_BLANK.pdf" = "TSCA_BLANK" := by decide
  apply String.ext
  simp only [tscaOutputName, hname, gt_iff_lt, lt_irrefl, if_false, String.data_append,
    List.append_assoc]
  rfl

/-- C13: for every shipment number `s` and every number `g >= 1` of groups, the output file
name of group `i` (from 0) of the TSCA branch is `TSCA_BLANK_` + `s` + `_` + `(i + 1)` +
`.pdf` when `g > 1` and `TSCA_BLANK_` + `s` + `.pdf` when `g = 1`, so the `g` output names
of a request are pairwise distinct; the TSCA branch stamps the files with these names in
the output directory, `g` being the number of groups of the item list. -/
theorem tscaOutputName_layout_distinct (shipmentNumber : String) (g : Nat) (hg : 1 ≤ g) :
    (1 < g → ∀ i,
        tscaOutputName shipmentNumber "TSCA_BLANK.pdf" g i
          = "TSCA_BLANK_" ++ shipmentNumber ++ "_" ++ toString (i + 1) ++ ".pdf")
      ∧ (g = 1 → ∀ i,
        tscaOutputName shipmentNumber "TSCA_BLANK.pdf" g i
          = "TSCA_BLANK_" ++ shipmentNumber ++ ".pdf")
      ∧ (∀ i j, i < g → j < g →
        tscaOutputName shipmentNumber "TSCA_BLANK.pdf" g i
          = tscaOutputName shipmentNumber "TSCA_BLANK.pdf" g j → i = j)
      ∧ (∀ (env : PipelineEnv) (shipmentData : ShipmentData)
          (inputPath outputPath : String) (st : PipelineState),
          (stampedForms (tscaBranch env shipmentNumber shipmentData "TSCA_BLANK.pdf"
              inputPath outputPath st).effects).map (fun form => form.1)
            = (stampedForms st.effects).map (fun form => form.1)
              ++ (List.range (((shipmentData.items.getD []).length + 3) / 4)).map (fun i =>
                  env.pathJoin env.outputDir
                    (tscaOutputName shipmentNumber "TSCA_BLANK.pdf"
                      (((shipmentData.items.getD []).length + 3) / 4) i))) := by
  refine ⟨?_, ?_, ?_, ?_⟩
  · intro h i
    exact tscaOutputName_many shipmentNumber g i h
  · intro h i
    subst h
    exact tscaOutputName_single shipmentNumber i
  · intro i j hi hj h
    by_cases h1 : g = 1
    · omega
    · have hgt : 1 < g := by omega
      rw [tscaOutputName_many shipmentNumber g i hgt,
        tscaOutputName_many shipmentNumber g j hgt] at h
      have hd := congrArg String.data h
      simp only [String.data_append] at hd
      have h2 := List.append_cancel_right hd
      have h3 := List.append_cancel_left h2
      have h4 : toString (i + 1) = toString (j + 1) := String.ext h3
      have := toString_nat_injective (i + 1) (j + 1) h4
      omega
  · intro env shipmentData inputPath outputPath st
    rw [tscaBranch_stampedForms]
    simp [tscaOutputPath, Function.comp]

/-- Witness of C13: the names of three groups. -/
theorem tscaOutputName_layout_distinct_witness :
    (1 ≤ 3)
      ∧ tscaOutputName "1Z999" "TSCA_BLANK.pdf" 3 1 = "TSCA_BLANK_1Z999_2.pdf"
      ∧ ((0 : Nat) < 3 → 2 < 3 →
          tscaOutputName "1Z999" "TSCA_BLANK.pdf" 3 0
            = tscaOutputName "1Z999" "TSCA_BLANK.pdf" 3 2 → (0 : Nat) = 2) :=
  ⟨by decide,
    ((tscaOutputName_layout_distinct "1Z999" 3 (by decide)).1 (by decide) 1).trans
      (by decide),
    (tscaOutputName_layout_distinct "1Z999" 3 (by decide)).2.2.1 0 2⟩

/-! ## The missing value claim -/

theorem toDigits_getLast? (n : Nat) :
    (Nat.toDigits 10 n).getLast? = some (Nat.digitChar (n % 10)) := by
  by_cases h : n < 10
  · have h1 : n % 10 = n := by omega
    rw [toDigits_lt_ten n h, h1]; rfl
  · rw [toDigits_ten_le n (by omega)]
    simp

theorem digitChar_not_letter (d : Nat) (hd : d < 10) :
    Nat.digitChar d ≠ 'd' ∧ Nat.digitChar d ≠ 'l' := by
  interval_cases d <;> decide

theorem natText_not_placeholder (n : Nat) :
    toString n ≠ "undefined" ∧ toString n ≠ "null" := by
  have hlast := toDigits_getLast? n
  have hd := digitChar_not_letter (n % 10) (Nat.mod_lt _ (by omega))
  refine ⟨?_, ?_⟩
  · intro h
    have h1 : (toString n).data.getLast? = some 'd' := by rw [h]; rfl
    rw [toString_nat_data, hlast] at h1
    exact hd.1 (Option.some.inj h1)
  · intro h
    have h1 : (toString n).data.getLast? = some 'l' := by rw [h]; rfl
    rw [toString_nat_data, hlast] at h1
    exact hd.2 (Option.some.inj h1)

theorem getLast?_digit_not_placeholder (t : String) (d : Nat)
    (h : t.data.getLast? = some (Nat.digitChar (d % 10))) :
    t ≠ "undefined" ∧ t ≠ "null" := by
  have hd := digitChar_not_letter (d % 10) (Nat.mod_lt _ (by omega))
  refine ⟨?_, ?_⟩
  · intro ht
    have h1 : t.data.getLast? = some 'd' := by rw [ht]; rfl
    rw [h] at h1
    exact hd.1 (Option.some.inj h1)
  · intro ht
    have h1 : t.data.getLast? = some 'l' := by rw [ht]; rfl
    rw [h] at h1
    exact hd.2 (Option.some.inj h1)

theorem natText_getLast? (n : Nat) :
    (toString n).data.getLast? = some (Nat.digitChar (n % 10)) := by
  rw [toString_nat_data, toDigits_getLast?]

theorem append_natText_getLast? (t : String) (n : Nat) :
    (t ++ toString n).data.getLast? = some (Nat.digitChar (n % 10)) := by
  rw [String.data_append, List.getLast?_append, natText_getLast?]
  rfl

theorem digitsText_getLast? (s m : Nat) :
    ∃ d : Nat, (digitsText s m).data.getLast? = some (Nat.digitChar (d % 10)) := by
  unfold digitsText
  split
  · cases m with
    | zero =>
      refine ⟨s, ?_⟩
      rw [String.data_append]
      simp [natText_getLast?]
    | succ k =>
      refine ⟨0, ?_⟩
      rw [String.data_append, List.getLast?_append]
      simp [List.replicate_succ, List.getLast?_cons, List.getLast?_replicate]
      split <;> rfl
  · split
    · exact ⟨_, append_natText_getLast? _ _⟩
    · exact ⟨_, append_natText_getLast? _ _⟩

theorem naturalText_getLast? (x : Nat) :
    ∃ d : Nat, (naturalText x).data.getLast? = some (Nat.digitChar (d % 10)) := by
  unfold naturalText
  split
  · exact ⟨x, natText_getLast? x⟩
  · exact digitsText_getLast? _ _

theorem jsNumberText_not_placeholder (x : JsNumber) :
    jsNumberText x ≠ "undefined" ∧ jsNumberText x ≠ "null" := by
  cases x with
  | nan => exact ⟨by decide, by decide⟩
  | infinity negative => cases negative <;> exact ⟨by decide, by decide⟩
  | finite n =>
    obtain ⟨d, hd⟩ := naturalText_getLast? n.natAbs
    by_cases hn : n < 0
    · refine getLast?_digit_not_placeholder _ d ?_
      simp only [jsNumberText, hn, if_true]
      rw [String.data_append, List.getLast?_append, hd]
      rfl
    · refine getLast?_digit_not_placeholder _ d ?_
      simp only [jsNumberText, hn, if_false]
      exact hd

theorem numText_not_placeholder (n : Int) :
    numText n ≠ "undefined" ∧ numText n ≠ "null" :=
  jsNumberText_not_placeholder (roundDouble n)

theorem invoiceNumber_not_placeholder (env : MapperEnv) :
    invoiceNumber env ≠ "undefined" ∧ invoiceNumber env ≠ "null" := by
  have hhead : (invoiceNumber env).data.head? = some 'I' := by
    simp [invoiceNumber, String.data_append]
  refine ⟨?_, ?_⟩
  · intro h
    rw [h] at hhead
    exact absurd hhead (by decide)
  · intro h
    rw [h] at hhead
    exact absurd hhead (by decide)

theorem strOr_empty_eq (a : Option String) (t : String) (h : strOr a "" = t) (ht : t ≠ "") :
    a = some t := by
  cases a with
  | none => simp [strOr] at h; exact absurd h.symm ht
  | some s =>
    by_cases hs : s = ""
    · simp [strOr, hs] at h; exact absurd h.symm ht
    · simp [strOr, hs] at h; rw [h]

theorem strOr_none (b : String) : strOr none b = b := rfl

theorem buildCustomsLines_invoice_texts (env : MapperEnv) (shipment : ShipmentData) :
    (buildCustomsLinesFromShipment env shipment "INVOICES").map (fun f => f.text)
      = [ some (strOr (shipment.address.getD {}).name ""),
          some (strOr (shipment.address.getD {}).addressLine1 ""),
          some (strOr (shipment.address.getD {}).city ""),
          some (strOr (shipment.address.getD {}).countryCode ""),
          some env.currentDate,
          some (invoiceNumber env),
          some (numText (invoiceSubtotal (shipment.order.getD {}))),
          some (numText (discountRebate (shipment.order.getD {}))),
          some (numText (invoiceSubtotal (shipment.order.getD {}))),
          some (numText (freight (shipment.order.getD {}))),
          some (numText (insurance (shipment.order.getD {}))),
          some (numText (others (shipment.order.getD {}))),
          some (jsNumberText (totalInvoiceAmount (shipment.order.getD {}))),
          some (strOr shipment.shipmentNumber ""),
          some (if numOr (shipment.order.getD {}).weight 0 ≠ 0 then
              numText (numOr (shipment.order.getD {}).weight 0) else ""),
          some (if (shipment.items.getD []).length ≠ 0 then
              toString (shipment.items.getD []).length else "") ] := by
  simp [buildCustomsLinesFromShipment, fieldAt, fieldOn]

theorem buildCustomsLines_tsca_texts (env : MapperEnv) (shipment : ShipmentData) :
    (buildCustomsLinesFromShipment env shipment "TSCA").map (fun f => f.text)
      = [ some (strOr shipment.shipmentNumber ""), some env.currentDate ]
        ++ ((shipment.items.getD []).take 4).map (fun item =>
            some (" ".intercalate
              ((splitSpace (strOr item.description (strOr item.name ""))).take 4))) := by
  rw [buildCustomsLines_tsca_eq]
  simp only [List.map_append, List.map_cons, List.map_nil, fieldAt]
  rw [mapIdxFrom_map tscaProductField (fun f => f.text)
    (fun item => some (" ".intercalate
      ((splitSpace (strOr item.description (strOr item.name ""))).take 4)))
    (fun _ _ => rfl)]

theorem buildCustomsLines_232_texts (env : MapperEnv) (shipment : ShipmentData) :
    (buildCustomsLinesFromShipment env shipment "232_FORM").map (fun f => f.text)
      = [ some env.currentDate ] := by
  simp [buildCustomsLinesFromShipment, fieldAt]

theorem placeholder_ne_empty (t : String) (h : t = "undefined" ∨ t = "null") : t ≠ "" := by
  rcases h with rfl | rfl <;> decide

theorem numText_ne_of_placeholder (n : Int) (t : String) (h : t = "undefined" ∨ t = "null") :
    numText n ≠ t := by
  rcases h with rfl | rfl
  · exact (numText_not_placeholder n).1
  · exact (numText_not_placeholder n).2

theorem jsNumberText_ne_of_placeholder (x : JsNumber) (t : String)
    (h : t = "undefined" ∨ t = "null") : jsNumberText x ≠ t := by
  rcases h with rfl | rfl
  · exact (jsNumberText_not_placeholder x).1
  · exact (jsNumberText_not_placeholder x).2

/-- C12: for every shipment record, whatever subset of the address fields, of the shipment
number and of the description and name of an item is missing, the mapper returns its
fields for the INVOICES, TSCA and 232_FORM kinds, every field has a text, and every field
derived from a missing value has the empty text; a field has the text `undefined` or
`null` only when that very text is a value present in the record (or the formatted date):
the mapper never puts such a placeholder for a missing value. -/
theorem buildCustomsLines_missing_values (env : MapperEnv) (shipment : ShipmentData)
    (address : Address) (haddress : shipment.address.getD {} = address)
    (items : List Item) (hitems : shipment.items.getD [] = items) :
    (address.name = none →
        (buildCustomsLinesFromShipment env shipment "INVOICES")[0]?
          = some (fieldAt "" 84 512))
      ∧ (address.addressLine1 = none →
        (buildCustomsLinesFromShipment env shipment "INVOICES")[1]?
          = some (fieldAt "" 23 500))
      ∧ (address.city = none →
        (buildCustomsLinesFromShipment env shipment "INVOICES")[2]?
          = some (fieldAt "" 23 488))
      ∧ (address.countryCode = none →
        (buildCustomsLinesFromShipment env shipment "INVOICES")[3]?
          = some (fieldAt "" 23 476))
      ∧ (shipment.shipmentNumber = none →
        (buildCustomsLinesFromShipment env shipment "INVOICES")[13]?
            = some (fieldAt "" 359 712)
          ∧ (buildCustomsLinesFromShipment env shipment "TSCA")[0]?
            = some (fieldAt "" 240 127))
      ∧ (∀ i item, i < 4 → items[i]? = some item →
          item.description = none → item.name = none →
          ((buildCustomsLinesFromShipment env shipment "TSCA")[2 + i]?).map
              (fun f => (f.text, f.x))
            = some (some "", some 50))
      ∧ (∀ kind ∈ ["INVOICES", "TSCA", "232_FORM"],
          ∀ f ∈ buildCustomsLinesFromShipment env shipment kind, ∃ t, f.text = some t)
      ∧ (∀ kind ∈ ["INVOICES", "TSCA", "232_FORM"],
          ∀ f ∈ buildCustomsLinesFromShipment env shipment kind, ∀ t, f.text = some t →
            (t = "undefined" ∨ t = "null") →
            address.name = some t ∨ address.addressLine1 = some t ∨ address.city = some t
              ∨ address.countryCode = some t ∨ shipment.shipmentNumber = some t
              ∨ env.currentDate = t
              ∨ ∃ item ∈ items, strOr item.description (strOr item.name "") ≠ ""
                  ∧ t = " ".intercalate
                      ((splitSpace (strOr item.description (strOr item.name ""))).take 4)) := by
  refine ⟨?_, ?_, ?_, ?_, ?_, ?_, ?_, ?_⟩
  · intro h
    simp [buildCustomsLinesFromShipment, haddress, h, strOr]
  · intro h
    simp [buildCustomsLinesFromShipment, haddress, h, strOr]
  · intro h
    simp [buildCustomsLinesFromShipment, haddress, h, strOr]
  · intro h
    simp [buildCustomsLinesFromShipment, haddress, h, strOr]
  · intro h
    refine ⟨?_, ?_⟩
    · simp [buildCustomsLinesFromShipment, h, strOr]
    · rw [buildCustomsLines_tsca_eq]
      simp [h, strOr]
  · intro i item hi hitem hd hn
    have hlt : i < items.length := by
      by_contra hge
      rw [List.getElem?_eq_none (by omega)] at hitem
      cases hitem
    have h2 : 2 + i = i + 2 := by omega
    rw [buildCustomsLines_tsca_eq, hitems, h2]
    simp only [List.cons_append, List.nil_append, List.getElem?_cons_succ,
      mapIdxFrom_getElem?, List.getElem?_take_of_lt hi, hitem, Option.map_some',
      tscaProductField, hd, hn, strOr]
    decide
  · intro kind hkind f hf
    have hmem : f.text ∈ (buildCustomsLinesFromShipment env shipment kind).map
        (fun f => f.text) := List.mem_map_of_mem _ hf
    simp only [List.mem_cons, List.mem_singleton, List.not_mem_nil, or_false] at hkind
    rcases hkind with rfl | rfl | rfl
    · rw [buildCustomsLines_invoice_texts] at hmem
      simp only [List.mem_cons, List.mem_singleton, List.not_mem_nil, or_false] at hmem
      rcases hmem with h | h | h | h | h | h | h | h | h | h | h | h | h | h | h | h <;>
        exact ⟨_, h⟩
    · rw [buildCustomsLines_tsca_texts] at hmem
      simp only [List.cons_append, List.nil_append, List.mem_cons, List.mem_map] at hmem
      rcases hmem with h | h | ⟨item, _, h⟩
      · exact ⟨_, h⟩
      · exact ⟨_, h⟩
      · exact ⟨_, h.symm⟩
    · rw [buildCustomsLines_232_texts] at hmem
      simp only [List.mem_singleton] at hmem
      exact ⟨_, hmem⟩
  · intro kind hkind f hf t ht hbad
    have hne := placeholder_ne_empty t hbad
    have hnum := fun n => numText_ne_of_placeholder n t hbad
    have hmem : some t ∈ (buildCustomsLinesFromShipment env shipment kind).map
        (fun f => f.text) := by
      rw [← ht]; exact List.mem_map_of_mem _ hf
    simp only [List.mem_cons, List.mem_singleton, List.not_mem_nil, or_false] at hkind
    rcases hkind with rfl | rfl | rfl
    · rw [buildCustomsLines_invoice_texts, haddress] at hmem
      simp only [List.mem_cons, List.mem_singleton, List.not_mem_nil, or_false,
        Option.some.injEq] at hmem
      rcases hmem with h | h | h | h | h | h | h | h | h | h | h | h | h | h | h | h
      · exact Or.inl (strOr_empty_eq _ _ h.symm hne)
      · exact Or.inr (Or.inl (strOr_empty_eq _ _ h.symm hne))
      · exact Or.inr (Or.inr (Or.inl (strOr_empty_eq _ _ h.symm hne)))
      · exact Or.inr (Or.inr (Or.inr (Or.inl (strOr_empty_eq _ _ h.symm hne))))
      · exact Or.inr (Or.inr (Or.inr (Or.inr (Or.inr (Or.inl h.symm)))))
      · rcases hbad with rfl | rfl
        · exact absurd h.symm (invoiceNumber_not_placeholder env).1
        · exact absurd h.symm (invoiceNumber_not_placeholder env).2
      · exact absurd h.symm (hnum _)
      · exact absurd h.symm (hnum _)
      · exact absurd h.symm (hnum _)
      · exact absurd h.symm (hnum _)
      · exact absurd h.symm (hnum _)
      · exact absurd h.symm (hnum _)
      · exact absurd h.symm (jsNumberText_ne_of_placeholder _ t hbad)
      · exact Or.inr (Or.inr (Or.inr (Or.inr (Or.inl (strOr_empty_eq _ _ h.symm hne)))))
      · exfalso
        split at h
        · exact hnum _ h.symm
        · exact hne h
      · exfalso
        split at h
        · rcases hbad with rfl | rfl
          · exact (natText_not_placeholder _).1 h.symm
          · exact (natText_not_placeholder _).2 h.symm
        · exact hne h
    · rw [buildCustomsLines_tsca_texts, hitems] at hmem
      simp only [List.cons_append, List.nil_append, List.mem_cons, List.mem_map,
        Option.some.injEq] at hmem
      rcases hmem with h | h | ⟨item, hitem, h⟩
      · exact Or.inr (Or.inr (Or.inr (Or.inr (Or.inl (strOr_empty_eq _ _ h.symm hne)))))
      · exact Or.inr (Or.inr (Or.inr (Or.inr (Or.inr (Or.inl h.symm)))))
      · refine Or.inr (Or.inr (Or.inr (Or.inr (Or.inr (Or.inr
          ⟨item, List.mem_of_mem_take hitem, ?_, h.symm⟩)))))
        intro hempty
        rw [hempty] at h
        apply hne
        rw [← h]
        decide
    · rw [buildCustomsLines_232_texts] at hmem
      simp only [List.mem_singleton, Option.some.injEq] at hmem
      exact Or.inr (Or.inr (Or.inr (Or.inr (Or.inr (Or.inl hmem.symm)))))

/-- Witness of C12: a record in which every one of the values is missing. -/
theorem buildCustomsLines_missing_values_witness :
    ((bareShipment.address.getD {}).name = none)
      ∧ (buildCustomsLinesFromShipment (MapperEnv.mk "11/05/2026" 1762300800000 7)
          bareShipment "INVOICES")[0]? = some (fieldAt "" 84 512) :=
  ⟨rfl,
    (buildCustomsLines_missing_values (MapperEnv.mk "11/05/2026" 1762300800000 7)
      bareShipment _ rfl _ rfl).1 rfl⟩

/-! ## The word preservation claim -/

theorem splitWhitespaceGo_inSep (cs : List Char) :
    (splitWhitespaceGo cs true []).filter (fun p => p ≠ [])
      = (splitWhitespaceGo cs false []).filter (fun p => p ≠ []) := by
  cases cs with
  | nil => rfl
  | cons c cs =>
    by_cases hc : jsIsWhiteSpace c = true
    · simp [splitWhitespaceGo, hc]
    · simp [splitWhitespaceGo, hc]

theorem splitWhitespaceGo_space (b : List Char) (a : List Char) :
    ∀ (inSep : Bool) (cur : List Char), (inSep = true → cur = []) →
      (splitWhitespaceGo (a ++ ' ' :: b) inSep cur).filter (fun p => p ≠ [])
        = (splitWhitespaceGo a inSep cur).filter (fun p => p ≠ [])
          ++ (splitWhitespaceGo b false []).filter (fun p => p ≠ []) := by
  have hsp : jsIsWhiteSpace ' ' = true := by decide
  induction a with
  | nil =>
    intro inSep cur hcur
    cases inSep with
    | true =>
      have hc := hcur rfl
      subst hc
      simp only [List.nil_append, splitWhitespaceGo, hsp, if_true]
      rw [splitWhitespaceGo_inSep]
      simp
    | false =>
      simp only [List.nil_append, splitWhitespaceGo, hsp, if_true, Bool.false_eq_true,
        if_false]
      rw [List.filter_cons, List.filter_cons, splitWhitespaceGo_inSep]
      by_cases hcur0 : cur = [] <;> simp [hcur0]
  | cons c a ih =>
    intro inSep cur hcur
    by_cases hc : jsIsWhiteSpace c = true
    · cases inSep with
      | true =>
        simp only [List.cons_append, splitWhitespaceGo, hc, if_true]
        exact ih true cur hcur
      | false =>
        simp only [List.cons_append, splitWhitespaceGo, hc, if_true, Bool.false_eq_true,
          if_false]
        rw [List.filter_cons, List.filter_cons]
        simp only [List.append_eq]
        rw [ih true [] (fun _ => rfl)]
        by_cases hcur0 : cur = [] <;> simp [hcur0]
    · simp only [List.cons_append, splitWhitespaceGo, hc, if_false]
      exact ih false (cur ++ [c]) (fun h => by cases h)

theorem splitWhitespaceGo_word (cs : List Char) :
    ∀ (inSep : Bool) (cur : List Char), (∀ c ∈ cs, jsIsWhiteSpace c = false) →
      splitWhitespaceGo cs inSep cur = [cur ++ cs] := by
  induction cs with
  | nil => intro inSep cur _; simp [splitWhitespaceGo]
  | cons c cs ih =>
    intro inSep cur h
    have hc : jsIsWhiteSpace c = false := h c (List.mem_cons_self _ _)
    simp only [splitWhitespaceGo, hc, Bool.false_eq_true, if_false]
    rw [ih false (cur ++ [c]) (fun d hd => h d (List.mem_cons_of_mem _ hd))]
    simp

theorem splitWhitespaceGo_pieces (cs : List Char) :
    ∀ (inSep : Bool) (cur : List Char), (∀ c ∈ cur, jsIsWhiteSpace c = false) →
      ∀ p ∈ splitWhitespaceGo cs inSep cur, ∀ c ∈ p, jsIsWhiteSpace c = false := by
  induction cs with
  | nil =>
    intro inSep cur hcur p hp
    simp only [splitWhitespaceGo, List.mem_singleton] at hp
    subst hp
    exact hcur
  | cons c cs ih =>
    intro inSep cur hcur p hp
    by_cases hc : jsIsWhiteSpace c = true
    · cases inSep with
      | true =>
        simp only [splitWhitespaceGo, hc, if_true] at hp
        exact ih true cur hcur p hp
      | false =>
        simp only [splitWhitespaceGo, hc, if_true, Bool.false_eq_true, if_false,
          List.mem_cons] at hp
        rcases hp with rfl | hp
        · exact hcur
        · exact ih true [] (fun _ h => by cases h) p hp
    · simp only [splitWhitespaceGo, hc, if_false] at hp
      refine ih false (cur ++ [c]) ?_ p hp
      intro d hd
      rcases List.mem_append.mp hd with hd | hd
      · exact hcur d hd
      · rw [List.mem_singleton.mp hd]
        simpa using hc

theorem nonEmptyWords_eq (s : String) :
    nonEmptyWords s
      = ((splitWhitespaceGo s.data false []).filter (fun p => p ≠ [])).map String.mk := by
  unfold nonEmptyWords splitWhitespace
  rw [List.filter_map]
  congr 1
  apply List.filter_congr
  intro p _
  simp only [Function.comp, ne_eq, decide_not, Bool.not_eq_eq_eq_not, Bool.not_not]
  have hiff : (String.mk p = "") ↔ (p = []) := by
    rw [String.ext_iff]
  simp [hiff]

theorem nonEmptyWords_space (a b : String) :
    nonEmptyWords (a ++ " " ++ b) = nonEmptyWords a ++ nonEmptyWords b := by
  rw [nonEmptyWords_eq, nonEmptyWords_eq, nonEmptyWords_eq]
  have hdata : (a ++ " " ++ b).data = a.data ++ ' ' :: b.data := by
    simp [String.data_append]
  rw [hdata, splitWhitespaceGo_space b.data a.data false [] (fun h => by cases h),
    List.map_append]

theorem nonEmptyWords_empty : nonEmptyWords "" = [] := by decide

/-- A piece of `split(/\s+/)` has no white space, so it is its own only word. -/
theorem nonEmptyWords_piece (text w : String) (hw : w ∈ splitWhitespace text) :
    nonEmptyWords w = if w = "" then [] else [w] := by
  unfold splitWhitespace at hw
  obtain ⟨p, hp, rfl⟩ := List.mem_map.mp hw
  have hnows := splitWhitespaceGo_pieces text.data false [] (fun _ h => by cases h) p hp
  rw [nonEmptyWords_eq]
  have hgo : splitWhitespaceGo (String.mk p).data false [] = [p] := by
    rw [splitWhitespaceGo_word p false [] hnows]
    rfl
  rw [hgo]
  have hiff : (String.mk p = "") ↔ (p = []) := by
    rw [String.ext_iff]
  by_cases hp0 : p = []
  · simp [hp0]
  · have hne : ¬ String.mk p = "" := fun h => hp0 (hiff.mp h)
    simp [hp0, hne]

theorem wrapStep_words (font : Font) (size maxWidth : ℚ) (st : String × List String)
    (w : String) (hwrapped : ∀ ln ∈ st.2, ln ≠ "") :
    ((wrapStep font size maxWidth st w).2.map nonEmptyWords).flatten
          ++ nonEmptyWords (wrapStep font size maxWidth st w).1
        = (st.2.map nonEmptyWords).flatten ++ nonEmptyWords st.1 ++ nonEmptyWords w
      ∧ ∀ ln ∈ (wrapStep font size maxWidth st w).2, ln ≠ "" := by
  by_cases hfit :
      font.widthOfTextAtSize (if st.1 ≠ "" then st.1 ++ " " ++ w else w) size ≤ maxWidth
  · have hstep : wrapStep font size maxWidth st w
        = ((if st.1 ≠ "" then st.1 ++ " " ++ w else w), st.2) := by
      simp only [wrapStep, hfit, if_true]
    rw [hstep]
    refine ⟨?_, hwrapped⟩
    by_cases hc : st.1 = ""
    · simp [hc, nonEmptyWords_empty]
    · simp [hc, nonEmptyWords_space]
  · have hstep : wrapStep font size maxWidth st w
        = (w, if st.1 ≠ "" then st.2 ++ [st.1] else st.2) := by
      simp only [wrapStep, hfit, if_false]
    rw [hstep]
    by_cases hc : st.1 = ""
    · refine ⟨?_, ?_⟩
      · simp [hc, nonEmptyWords_empty]
      · simpa [hc] using hwrapped
    · refine ⟨?_, ?_⟩
      · simp [hc]
      · intro ln hln
        simp only [ne_eq, hc, not_false_eq_true, if_true, List.mem_append,
          List.mem_singleton] at hln
        rcases hln with hln | rfl
        · exact hwrapped ln hln
        · exact hc

theorem wrapFold_words (font : Font) (size maxWidth : ℚ) (words : List String) :
    ∀ st : String × List String,
      (∀ w ∈ words, nonEmptyWords w = if w = "" then [] else [w]) →
      (∀ ln ∈ st.2, ln ≠ "") →
      ((wrapFinish (words.foldl (wrapStep font size maxWidth) st)).map nonEmptyWords).flatten
          = (st.2.map nonEmptyWords).flatten ++ nonEmptyWords st.1
            ++ words.filter (fun w => w ≠ "")
        ∧ ∀ ln ∈ wrapFinish (words.foldl (wrapStep font size maxWidth) st), ln ≠ "" := by
  induction words with
  | nil =>
    intro st _ hwrapped
    by_cases hc : st.1 = ""
    · refine ⟨?_, ?_⟩
      · simp [wrapFinish, hc, nonEmptyWords_empty]
      · simpa [wrapFinish, hc] using hwrapped
    · refine ⟨?_, ?_⟩
      · simp [wrapFinish, hc]
      · intro ln hln
        simp only [List.foldl_nil, wrapFinish, ne_eq, hc, not_false_eq_true, if_true,
          List.mem_append, List.mem_singleton] at hln
        rcases hln with hln | rfl
        · exact hwrapped ln hln
        · exact hc
  | cons w rest ih =>
    intro st hwords hwrapped
    have hw := hwords w (List.mem_cons_self _ _)
    obtain ⟨hstep, hne⟩ := wrapStep_words font size maxWidth st w hwrapped
    obtain ⟨h1, h2⟩ := ih (wrapStep font size maxWidth st w)
      (fun v hv => hwords v (List.mem_cons_of_mem _ hv)) hne
    refine ⟨?_, h2⟩
    rw [List.foldl_cons, h1, hstep, hw]
    by_cases hw0 : w = ""
    · simp [hw0]
    · simp [hw0]

/-- C15: for every text and every `maxWidth > 0`, also with words wider than `maxWidth`
and whatever the font measures, the lines the word wrap of `writeTextOnPdf` draws lose
nothing: no drawn line is empty, and the non-empty pieces between white space of the
drawn lines, taken in order, are exactly the non-empty pieces between white space of the
text, in their order: no word is dropped, repeated or moved. -/
theorem writeTextOnPdf_wrap_keeps_words (font : Font) (height : ℚ) (line : TextField)
    (maxWidth : ℚ) (hmw : line.maxWidth = some maxWidth) (hpos : 0 < maxWidth) :
    (∀ d ∈ fieldDrawing font height line, d.text ≠ "")
      ∧ (((fieldDrawing font height line).map (fun d => d.text)).map nonEmptyWords).flatten
          = nonEmptyWords (line.text.getD "") := by
  have htexts : (fieldDrawing font height line).map (fun d => d.text)
      = wrapLines font (line.size.getD 8) maxWidth (line.text.getD "") := by
    rw [fieldDrawing_wrapped font height line maxWidth hmw hpos,
      mapIdxFrom_map _ _ (fun ln => ln) (fun _ _ => rfl)]
    simp
  obtain ⟨h1, h2⟩ := wrapFold_words font (line.size.getD 8) maxWidth
    (splitWhitespace (line.text.getD "")) ("", [])
    (fun w hw => nonEmptyWords_piece (line.text.getD "") w hw) (by simp)
  refine ⟨?_, ?_⟩
  · intro d hd
    have hmem : d.text ∈ (fieldDrawing font height line).map (fun d => d.text) :=
      List.mem_map_of_mem _ hd
    rw [htexts] at hmem
    exact h2 d.text hmem
  · rw [htexts]
    unfold wrapLines
    rw [h1]
    simp only [List.map_nil, List.flatten_nil, List.nil_append, nonEmptyWords_empty]
    rfl

/-- Witness of C15: a text with a word wider than the wrap width. -/
theorem writeTextOnPdf_wrap_keeps_words_witness :
    (wideWordField.maxWidth = some 48) ∧ ((0 : ℚ) < 48)
      ∧ (((fieldDrawing squareFont 792 wideWordField).map (fun d => d.text)).map
            nonEmptyWords).flatten
          = ["ab", "extraordinarily", "cd"] :=
  ⟨rfl, by norm_num,
    ((writeTextOnPdf_wrap_keeps_words squareFont 792 wideWordField 48 rfl
      (by norm_num)).2).trans (by decide)⟩

end UpsDocs
